import Mathlib

/-
Verification development for the bevy_hui markup/style/animation core.

Modelling conventions, used throughout:
* Rust machine floats (f32) are embedded as exact rationals (ℚ); the
  arithmetic performed by the embedded code (addition, subtraction,
  multiplication, division by constants) is exact on the inputs the
  theorems use, so no rounding model is needed.
* Byte slices (&[u8]) are embedded as `List Char`; all inputs of interest
  are ASCII, and `String::from_utf8_lossy` is the identity there.
* nom parsers are embedded as total functions
  `List Char → Option (List Char × α)`; `none` is a parse error
  (`nom::Err::Error` and `nom::Err::Failure` are not distinguished
  because no embedded caller distinguishes them).
* bevy's sRGB-to-linear gamma map (external to this repository) is kept
  as an explicit function parameter `γ : ℚ → ℚ`; the real map satisfies
  `γ 1 = 1`, which is the only fact any theorem needs.
* bevy's `Timer` is abstracted by a per-tick boolean `finished` input;
  a "frame-timer completion" is a tick with `finished = true`.
-/

namespace BevyHui

/-- Lengths, as in bevy `Val`: the unit variants produced by `parse_val`
in parse.rs (auto, px, percent, vw, vh, vmin, vmax), numeric payload ℚ. -/
inductive Val where
  | auto : Val
  | px (v : ℚ) : Val
  | percent (v : ℚ) : Val
  | vw (v : ℚ) : Val
  | vh (v : ℚ) : Val
  | vmin (v : ℚ) : Val
  | vmax (v : ℚ) : Val
deriving DecidableEq, Repr

/-- Embedding of `lerp_val` (styles.rs, lines 748-756): interpolates only
when both values are `Percent` or both are `Px`, using
`(end - start).mul_add(ratio, start)`; every other pair returns `start`. -/
def lerp_val (start finish : Val) (r : ℚ) : Val :=
  match start, finish with
  | .percent s, .percent e => .percent ((e - s) * r + s)
  | .px s, .px e => .px ((e - s) * r + s)
  | s, _ => s

/-- True exactly on the pairs for which `lerp_val` has an interpolation
arm: both percent, or both px (the first two match arms of the source). -/
def lerpCompat : Val → Val → Bool
  | .percent _, .percent _ => true
  | .px _, .px _ => true
  | _, _ => false

/-- Numeric payload of a `Val` (0 for `auto`), used to state monotonicity. -/
def valNum : Val → ℚ
  | .auto => 0
  | .px v => v
  | .percent v => v
  | .vw v => v
  | .vh v => v
  | .vmin v => v
  | .vmax v => v

/-- Claim C1 (counterexample). The claim states that for every pair of
length values of the same unit/variant, interpolation at ratio 1 returns
`end`. For the matching-unit pair `(Vw 0, Vw 1)` the code returns the
baseline `Vw 0`, not `Vw 1`: `lerp_val` only interpolates `Px`/`Px` and
`Percent`/`Percent`; all other unit pairs, matching or not, fall into the
catch-all arm and keep the start value. -/
theorem c1_counterexample :
    lerp_val (Val.vw 0) (Val.vw 1) 1 = Val.vw 0 ∧ Val.vw 0 ≠ Val.vw 1 := by
  constructor
  · rfl
  · decide

/-- Claim C1 (amended): for `Px`/`Px` and `Percent`/`Percent` pairs,
`lerp_val` returns `start` at ratio 0 and `end` at ratio 1 and is monotone
in the ratio; for every other pair — mismatched units, or matching units
among `auto`/`vw`/`vh`/`vmin`/`vmax` — it returns the baseline `start`
unchanged for every ratio. -/
theorem c1_lerp_val_amended :
    (∀ a b : ℚ, lerp_val (Val.px a) (Val.px b) 0 = Val.px a
      ∧ lerp_val (Val.px a) (Val.px b) 1 = Val.px b
      ∧ lerp_val (Val.percent a) (Val.percent b) 0 = Val.percent a
      ∧ lerp_val (Val.percent a) (Val.percent b) 1 = Val.percent b)
    ∧ (∀ a b r₁ r₂ : ℚ, a ≤ b → r₁ ≤ r₂ →
        valNum (lerp_val (Val.px a) (Val.px b) r₁)
          ≤ valNum (lerp_val (Val.px a) (Val.px b) r₂)
      ∧ valNum (lerp_val (Val.percent a) (Val.percent b) r₁)
          ≤ valNum (lerp_val (Val.percent a) (Val.percent b) r₂))
    ∧ (∀ a b r₁ r₂ : ℚ, b ≤ a → r₁ ≤ r₂ →
        valNum (lerp_val (Val.px a) (Val.px b) r₂)
          ≤ valNum (lerp_val (Val.px a) (Val.px b) r₁)
      ∧ valNum (lerp_val (Val.percent a) (Val.percent b) r₂)
          ≤ valNum (lerp_val (Val.percent a) (Val.percent b) r₁))
    ∧ (∀ s e : Val, ∀ r : ℚ, lerpCompat s e = false → lerp_val s e r = s) := by
  refine ⟨?_, ?_, ?_, ?_⟩
  · intro a b
    refine ⟨?_, ?_, ?_, ?_⟩ <;> simp [lerp_val]
  · intro a b r₁ r₂ hab hr
    constructor <;>
    · simp only [lerp_val, valNum]
      have h : 0 ≤ b - a := by linarith
      nlinarith [mul_le_mul_of_nonneg_left hr h]
  · intro a b r₁ r₂ hba hr
    constructor <;>
    · simp only [lerp_val, valNum]
      have h : b - a ≤ 0 := by linarith
      nlinarith [mul_le_mul_of_nonpos_left hr h]
  · intro s e r hc
    cases s <;> cases e <;> simp_all [lerpCompat, lerp_val]

/-- Claim C1 (witness): the amended theorem applied at concrete inputs,
discharging each hypothesis. -/
theorem c1_witness :
    (lerp_val (Val.px 0) (Val.px 2) 0 = Val.px 0
      ∧ lerp_val (Val.px 0) (Val.px 2) 1 = Val.px 2
      ∧ lerp_val (Val.percent 0) (Val.percent 2) 0 = Val.percent 0
      ∧ lerp_val (Val.percent 0) (Val.percent 2) 1 = Val.percent 2)
    ∧ (valNum (lerp_val (Val.px 0) (Val.px 2) (1/4))
        ≤ valNum (lerp_val (Val.px 0) (Val.px 2) (1/2))
      ∧ valNum (lerp_val (Val.percent 0) (Val.percent 2) (1/4))
        ≤ valNum (lerp_val (Val.percent 0) (Val.percent 2) (1/2)))
    ∧ (valNum (lerp_val (Val.px 2) (Val.px 0) (1/2))
        ≤ valNum (lerp_val (Val.px 2) (Val.px 0) (1/4))
      ∧ valNum (lerp_val (Val.percent 2) (Val.percent 0) (1/2))
        ≤ valNum (lerp_val (Val.percent 2) (Val.percent 0) (1/4)))
    ∧ lerp_val (Val.vh 3) (Val.vh 4) (1/2) = Val.vh 3 :=
  ⟨c1_lerp_val_amended.1 0 2,
   c1_lerp_val_amended.2.1 0 2 (1/4) (1/2) (by norm_num) (by norm_num),
   c1_lerp_val_amended.2.2.1 2 0 (1/4) (1/2) (by norm_num) (by norm_num),
   c1_lerp_val_amended.2.2.2 (Val.vh 3) (Val.vh 4) (1/2) (by decide)⟩

/-! nom parser embedding layer. -/

/-- Parsers over character lists: `none` is a parse error. -/
def ParserC (α : Type) : Type := List Char → Option (List Char × α)

/-- nom `tag`: match an exact character sequence. -/
def tagP (t : List Char) : ParserC (List Char) := fun input =>
  if t.isPrefixOf input then some (input.drop t.length, t) else none

/-- nom `char`: match a single character. -/
def charP (c : Char) : ParserC Char := fun input =>
  match input with
  | c2 :: rest => if c2 = c then some (rest, c) else none
  | [] => none

/-- Characters accepted by nom `multispace0`. -/
def isSpaceC (c : Char) : Bool := c = ' ' || c = '\t' || c = '\n' || c = '\r'

/-- nom `multispace0`: consume spaces, tabs, carriage returns, newlines. -/
def multispace0 : ParserC Unit := fun input =>
  some (input.dropWhile isSpaceC, ())

/-- nom `take_while`: longest (possibly empty) run satisfying the predicate. -/
def takeWhileP (p : Char → Bool) : ParserC (List Char) := fun input =>
  some (input.dropWhile p, input.takeWhile p)

/-- nom `take_while1`: like `take_while` but the run must be nonempty. -/
def takeWhile1P (p : Char → Bool) : ParserC (List Char) := fun input =>
  match input.takeWhile p with
  | [] => none
  | l => some (input.dropWhile p, l)

/-- nom `is_not` with a one-character set: nonempty run of characters
different from `bad`. -/
def isNotP (bad : Char) : ParserC (List Char) := takeWhile1P (fun c => c ≠ bad)

/-- nom `take_until` with a one-character tag: everything before the first
occurrence of `c`, failing when `c` does not occur. -/
def takeUntilCharP (c : Char) : ParserC (List Char) := fun input =>
  if input.any (fun x => x = c) then
    some (input.dropWhile (fun x => x ≠ c), input.takeWhile (fun x => x ≠ c))
  else none

/-- nom `alt` of two branches. -/
def orP {α : Type} (p q : ParserC α) : ParserC α := fun input =>
  match p input with
  | some r => some r
  | none => q input

/-- Numeric value of a digit run (base 10). -/
def digitsVal (ds : List Char) : ℕ :=
  ds.foldl (fun acc c => 10 * acc + (c.toNat - 48)) 0

/-- Fractional value of a digit run read after a decimal point. -/
def fracVal (ds : List Char) : ℚ := (digitsVal ds : ℚ) / ((10 : ℚ) ^ ds.length)

/-- Exponent part of nom `float`: optional `e`/`E`, optional sign, digits
(required once the `e` is seen). -/
def expPart (m : ℚ) : ParserC ℚ := fun input =>
  match input with
  | 'e' :: r =>
    let (r2, esgn) : List Char × ℤ :=
      match r with
      | '+' :: rr => (rr, 1)
      | '-' :: rr => (rr, -1)
      | rr => (rr, 1)
    match r2.takeWhile Char.isDigit with
    | [] => none
    | ds => some (r2.dropWhile Char.isDigit, m * (10 : ℚ) ^ (esgn * (digitsVal ds : ℤ)))
  | 'E' :: r =>
    let (r2, esgn) : List Char × ℤ :=
      match r with
      | '+' :: rr => (rr, 1)
      | '-' :: rr => (rr, -1)
      | rr => (rr, 1)
    match r2.takeWhile Char.isDigit with
    | [] => none
    | ds => some (r2.dropWhile Char.isDigit, m * (10 : ℚ) ^ (esgn * (digitsVal ds : ℤ)))
  | _ => some (input, m)

/-- nom `float` (complete): optional sign, then `digits [ . digits? ]` or
`. digits`, then an optional exponent. The `inf`/`nan` lexemes nom also
accepts have no ℚ denotation and are not modelled; no claim touches them.
The value is computed exactly instead of rounding to f32. -/
def floatP : ParserC ℚ := fun input0 =>
  let (input1, sgn) : List Char × ℚ :=
    match input0 with
    | '+' :: r => (r, 1)
    | '-' :: r => (r, -1)
    | r => (r, 1)
  match input1.takeWhile Char.isDigit with
  | [] =>
    match input1 with
    | '.' :: r2 =>
      match r2.takeWhile Char.isDigit with
      | [] => none
      | fp => expPart (sgn * fracVal fp) (r2.dropWhile Char.isDigit)
    | _ => none
  | ip =>
    let rest1 := input1.dropWhile Char.isDigit
    match rest1 with
    | '.' :: r2 =>
      let fp := r2.takeWhile Char.isDigit
      expPart (sgn * ((digitsVal ip : ℚ) + fracVal fp)) (r2.dropWhile Char.isDigit)
    | _ => expPart (sgn * (digitsVal ip : ℚ)) rest1

/-! Color model and parse.rs color parsers. -/

/-- Colors as constructed by parse.rs: always the linear-RGBA variant of
bevy `Color` (via `Color::linear_rgb(a)` or `srgb(a)_u8(..).to_linear()`). -/
inductive Color where
  | linearRgba (r g b a : ℚ) : Color
deriving DecidableEq, Repr

/-- Rust `u8::is_ascii_hexdigit`. -/
def isHexDigitC (c : Char) : Bool :=
  c.isDigit || ('a' ≤ c && c ≤ 'f') || ('A' ≤ c && c ≤ 'F')

/-- Value of one hexadecimal digit. -/
def hexVal (c : Char) : ℕ :=
  if c.isDigit then c.toNat - 48
  else if 'a' ≤ c && c ≤ 'f' then c.toNat - 87
  else c.toNat - 55

/-- Embedding of `hex_byte` + `from_hex_byte`: exactly two hex digits,
value in 0..255. -/
def hex_byte : ParserC ℕ := fun input =>
  match input with
  | c1 :: c2 :: rest =>
    if isHexDigitC c1 && isHexDigitC c2 then some (rest, 16 * hexVal c1 + hexVal c2)
    else none
  | _ => none

/-- Embedding of `hex_nib` + `from_hex_nib`: one hex digit `d`, expanded by
duplication (`format!("{}{}", d, d)` read base 16), so the value is `17*d`. -/
def hex_nib : ParserC ℕ := fun input =>
  match input with
  | c :: rest =>
    if isHexDigitC c then some (rest, 16 * hexVal c + hexVal c) else none
  | [] => none

/-- Embedding of `parse_rgba_color`: `rgba(r,g,b,a)` with float components,
built with `Color::linear_rgba` (no gamma conversion). -/
def parse_rgba_color : ParserC Color := fun input => do
  let (input, _) ← tagP ("rgba".toList) input
  let (input, _) ← tagP ("(".toList) input
  let (input, r) ← floatP input
  let (input, _) ← tagP (",".toList) input
  let (input, g) ← floatP input
  let (input, _) ← tagP (",".toList) input
  let (input, b) ← floatP input
  let (input, _) ← tagP (",".toList) input
  let (input, a) ← floatP input
  let (input, _) ← tagP (")".toList) input
  some (input, Color.linearRgba r g b a)

/-- Embedding of `parse_rgb_color`: `rgb(r,g,b)`, `Color::linear_rgb`,
alpha 1. -/
def parse_rgb_color : ParserC Color := fun input => do
  let (input, _) ← tagP ("rgb".toList) input
  let (input, _) ← tagP ("(".toList) input
  let (input, r) ← floatP input
  let (input, _) ← tagP (",".toList) input
  let (input, g) ← floatP input
  let (input, _) ← tagP (",".toList) input
  let (input, b) ← floatP input
  let (input, _) ← tagP (")".toList) input
  some (input, Color.linearRgba r g b 1)

/-- Embedding of `color_hex8_parser` (renamed: the original name is not
usable here): `#RRGGBBAA`, requiring exactly 8 characters after `#`,
`Color::srgba_u8(..).to_linear()`. `γ` is bevy's sRGB-to-linear channel
map (external to the repository), applied to the color channels but not to
alpha. -/
def colorHex8 (γ : ℚ → ℚ) : ParserC Color := fun input => do
  let (input, _) ← tagP ("#".toList) input
  if input.length ≠ 8 then none else do
  let (input, r) ← hex_byte input
  let (input, g) ← hex_byte input
  let (input, b) ← hex_byte input
  let (input, a) ← hex_byte input
  some (input, Color.linearRgba (γ ((r : ℚ) / 255)) (γ ((g : ℚ) / 255))
    (γ ((b : ℚ) / 255)) ((a : ℚ) / 255))

/-- Embedding of `color_hex6_parser`: `#RRGGBB`, exactly 6 characters after
`#`, `Color::srgb_u8(..).to_linear()`, alpha 1. -/
def colorHex6 (γ : ℚ → ℚ) : ParserC Color := fun input => do
  let (input, _) ← tagP ("#".toList) input
  if input.length ≠ 6 then none else do
  let (input, r) ← hex_byte input
  let (input, g) ← hex_byte input
  let (input, b) ← hex_byte input
  some (input, Color.linearRgba (γ ((r : ℚ) / 255)) (γ ((g : ℚ) / 255))
    (γ ((b : ℚ) / 255)) 1)

/-- Embedding of `color_hex4_parser`: `#RGBA`, exactly 4 characters after
`#`, nibbles expanded by duplication. -/
def colorHex4 (γ : ℚ → ℚ) : ParserC Color := fun input => do
  let (input, _) ← tagP ("#".toList) input
  if input.length ≠ 4 then none else do
  let (input, r) ← hex_nib input
  let (input, g) ← hex_nib input
  let (input, b) ← hex_nib input
  let (input, a) ← hex_nib input
  some (input, Color.linearRgba (γ ((r : ℚ) / 255)) (γ ((g : ℚ) / 255))
    (γ ((b : ℚ) / 255)) ((a : ℚ) / 255))

/-- Embedding of `color_hex3_parser`: `#RGB`, exactly 3 characters after
`#`, nibbles expanded by duplication, alpha 1. -/
def colorHex3 (γ : ℚ → ℚ) : ParserC Color := fun input => do
  let (input, _) ← tagP ("#".toList) input
  if input.length ≠ 3 then none else do
  let (input, r) ← hex_nib input
  let (input, g) ← hex_nib input
  let (input, b) ← hex_nib input
  some (input, Color.linearRgba (γ ((r : ℚ) / 255)) (γ ((g : ℚ) / 255))
    (γ ((b : ℚ) / 255)) 1)

/-- Embedding of `parse_color`: optional surrounding whitespace around the
alternation rgba / rgb / hex8 / hex6 / hex4 / hex3 (in that order). -/
def parse_color (γ : ℚ → ℚ) : ParserC Color := fun input => do
  let (input, _) ← multispace0 input
  let (input, c) ←
    orP parse_rgba_color (orP parse_rgb_color (orP (colorHex8 γ)
      (orP (colorHex6 γ) (orP (colorHex4 γ) (colorHex3 γ))))) input
  let (input, _) ← multispace0 input
  some (input, c)

/-- Claim C2: the six color notations `#FFF`, `#FFFF`, `#FFFFFF`,
`#FFFFFFFF`, `rgb(1,1,1)` and `rgba(1,1,1,1)` all parse successfully,
consume the whole input, and produce the same color value, opaque white
(linear RGBA 1 1 1 1). The hypothesis `γ 1 = 1` is the one property of
bevy's sRGB-to-linear map this needs: the map fixes 1 (both branches of
the piecewise definition agree there: ((1+0.055)/1.055)^2.4 = 1). -/
theorem c2_parse_color (γ : ℚ → ℚ) (hγ : γ 1 = 1) :
    parse_color γ ("#FFF".toList) = some ([], Color.linearRgba 1 1 1 1)
    ∧ parse_color γ ("#FFFF".toList) = some ([], Color.linearRgba 1 1 1 1)
    ∧ parse_color γ ("#FFFFFF".toList) = some ([], Color.linearRgba 1 1 1 1)
    ∧ parse_color γ ("#FFFFFFFF".toList) = some ([], Color.linearRgba 1 1 1 1)
    ∧ parse_color γ ("rgb(1,1,1)".toList) = some ([], Color.linearRgba 1 1 1 1)
    ∧ parse_color γ ("rgba(1,1,1,1)".toList) = some ([], Color.linearRgba 1 1 1 1) := by
  have hF : hexVal 'F' = 15 := by decide
  have hd1 : digitsVal ['1'] = 1 := by decide
  have e1 : parse_color γ ("#FFF".toList)
      = some ([], Color.linearRgba (γ ((↑(16 * hexVal 'F' + hexVal 'F') : ℚ) / 255))
          (γ ((↑(16 * hexVal 'F' + hexVal 'F') : ℚ) / 255))
          (γ ((↑(16 * hexVal 'F' + hexVal 'F') : ℚ) / 255)) 1) := rfl
  have e2 : parse_color γ ("#FFFF".toList)
      = some ([], Color.linearRgba (γ ((↑(16 * hexVal 'F' + hexVal 'F') : ℚ) / 255))
          (γ ((↑(16 * hexVal 'F' + hexVal 'F') : ℚ) / 255))
          (γ ((↑(16 * hexVal 'F' + hexVal 'F') : ℚ) / 255))
          ((↑(16 * hexVal 'F' + hexVal 'F') : ℚ) / 255)) := rfl
  have e3 : parse_color γ ("#FFFFFF".toList)
      = some ([], Color.linearRgba (γ ((↑(16 * hexVal 'F' + hexVal 'F') : ℚ) / 255))
          (γ ((↑(16 * hexVal 'F' + hexVal 'F') : ℚ) / 255))
          (γ ((↑(16 * hexVal 'F' + hexVal 'F') : ℚ) / 255)) 1) := rfl
  have e4 : parse_color γ ("#FFFFFFFF".toList)
      = some ([], Color.linearRgba (γ ((↑(16 * hexVal 'F' + hexVal 'F') : ℚ) / 255))
          (γ ((↑(16 * hexVal 'F' + hexVal 'F') : ℚ) / 255))
          (γ ((↑(16 * hexVal 'F' + hexVal 'F') : ℚ) / 255))
          ((↑(16 * hexVal 'F' + hexVal 'F') : ℚ) / 255)) := rfl
  have e5 : parse_color γ ("rgb(1,1,1)".toList)
      = some ([], Color.linearRgba (1 * (↑(digitsVal ['1']) : ℚ))
          (1 * (↑(digitsVal ['1']) : ℚ)) (1 * (↑(digitsVal ['1']) : ℚ)) 1) := rfl
  have e6 : parse_color γ ("rgba(1,1,1,1)".toList)
      = some ([], Color.linearRgba (1 * (↑(digitsVal ['1']) : ℚ))
          (1 * (↑(digitsVal ['1']) : ℚ)) (1 * (↑(digitsVal ['1']) : ℚ))
          (1 * (↑(digitsVal ['1']) : ℚ))) := rfl
  refine ⟨?_, ?_, ?_, ?_, ?_, ?_⟩
  · rw [e1, hF]; norm_num [hγ]
  · rw [e2, hF]; norm_num [hγ]
  · rw [e3, hF]; norm_num [hγ]
  · rw [e4, hF]; norm_num [hγ]
  · rw [e5, hd1]; norm_num
  · rw [e6, hd1]; norm_num

/-- Claim C2 (witness): the theorem applied at a concrete channel map
satisfying the hypothesis. -/
theorem c2_witness :
    parse_color (fun x => x) ("#FFF".toList) = some ([], Color.linearRgba 1 1 1 1)
    ∧ parse_color (fun x => x) ("#FFFF".toList) = some ([], Color.linearRgba 1 1 1 1)
    ∧ parse_color (fun x => x) ("#FFFFFF".toList) = some ([], Color.linearRgba 1 1 1 1)
    ∧ parse_color (fun x => x) ("#FFFFFFFF".toList) = some ([], Color.linearRgba 1 1 1 1)
    ∧ parse_color (fun x => x) ("rgb(1,1,1)".toList) = some ([], Color.linearRgba 1 1 1 1)
    ∧ parse_color (fun x => x) ("rgba(1,1,1,1)".toList) = some ([], Color.linearRgba 1 1 1 1) :=
  c2_parse_color (fun x => x) rfl

/-! Style data model.

Modelled from the spec: the crate file `data.rs`, which declares
`StyleAttr`, `Attribute`, `AttrTokens`, `XNode`, `NodeType` and
`HtmlTemplate`, is not among the provided sources; the declarations below
reconstruct it from spec §3 ("StyleAttr — a closed tagged union, one
variant per visual field … Three variants are modifiers: Hover/Pressed/
Active, each wrapping exactly one non-modifier variant") together with
every construction and match site in parse.rs, styles.rs, build.rs and
compile.rs. bevy's UI payload enums are reproduced with the constructor
sets that parse.rs names. -/

inductive Display where
  | none | flex | block | grid
deriving DecidableEq, Repr

inductive PositionType where
  | absolute | relative
deriving DecidableEq, Repr

inductive OverflowAxis where
  | visible | hidden | clip | scroll
deriving DecidableEq, Repr

structure Overflow where
  x : OverflowAxis
  y : OverflowAxis
deriving DecidableEq, Repr

inductive OverflowClipBox where
  | contentBox | paddingBox | borderBox
deriving DecidableEq, Repr

structure OverflowClipMargin where
  visualBox : OverflowClipBox
  margin : ℚ
deriving DecidableEq, Repr

inductive AlignItems where
  | default | center | start | flexEnd | stretch | end_ | baseline | flexStart
deriving DecidableEq, Repr

inductive JustifyItems where
  | default | center | start | stretch | end_ | baseline
deriving DecidableEq, Repr

inductive AlignSelf where
  | auto | center | start | flexEnd | stretch | end_ | flexStart
deriving DecidableEq, Repr

inductive JustifySelf where
  | auto | center | start | stretch | end_ | baseline
deriving DecidableEq, Repr

inductive AlignContent where
  | default | center | start | flexEnd | stretch | end_
  | spaceEvenly | spaceAround | spaceBetween | flexStart
deriving DecidableEq, Repr

inductive JustifyContent where
  | default | center | start | flexEnd | stretch | end_
  | spaceEvenly | spaceAround | spaceBetween | flexStart
deriving DecidableEq, Repr

inductive FlexDirection where
  | row | column | columnReverse | rowReverse
deriving DecidableEq, Repr

inductive FlexWrap where
  | wrap | noWrap | wrapReverse
deriving DecidableEq, Repr

inductive GridAutoFlow where
  | row | column | rowDense | columnDense
deriving DecidableEq, Repr

/-- bevy `GridTrack`, restricted to the constructors parse.rs calls. -/
inductive GridTrack where
  | auto | minContent | maxContent
  | px (v : ℚ) | percent (v : ℚ) | fr (v : ℚ) | flex (v : ℚ)
  | vh (v : ℚ) | vw (v : ℚ) | vmin (v : ℚ) | vmax (v : ℚ)
deriving DecidableEq, Repr

/-- bevy `RepeatedGridTrack`: a repeat count with a track, as constructed
by `parse_grid_track_repeated`. -/
structure RepeatedGridTrack where
  repeats : ℕ
  track : GridTrack
deriving DecidableEq, Repr

/-- bevy `GridPlacement`, via the constructors `parse_grid_placement`
calls (`end` is a keyword here, spelled `endAt`). -/
inductive GridPlacement where
  | auto
  | span (n : ℕ)
  | startAt (n : ℤ)
  | endAt (n : ℤ)
  | startSpan (s : ℤ) (n : ℕ)
  | endSpan (e : ℤ) (n : ℕ)
deriving DecidableEq, Repr

structure Vec2 where
  x : ℚ
  y : ℚ
deriving DecidableEq, Repr

structure UVec2 where
  x : ℕ
  y : ℕ
deriving DecidableEq, Repr

/-- bevy `Rect`; `from_corners` takes the componentwise min/max. -/
structure Rect where
  min : Vec2
  max : Vec2
deriving DecidableEq, Repr

def Rect.from_corners (p0 p1 : Vec2) : Rect :=
  { min := ⟨Min.min p0.x p1.x, Min.min p0.y p1.y⟩,
    max := ⟨Max.max p0.x p1.x, Max.max p0.y p1.y⟩ }

structure BorderRect where
  left : ℚ
  right : ℚ
  top : ℚ
  bottom : ℚ
deriving DecidableEq, Repr

def BorderRect.all (v : ℚ) : BorderRect := ⟨v, v, v, v⟩

def BorderRect.axes (x y : ℚ) : BorderRect := ⟨x, x, y, y⟩

inductive SliceScaleMode where
  | stretch
  | tile (stretchValue : ℚ)
deriving DecidableEq, Repr

structure TextureSlicer where
  border : BorderRect
  centerScaleMode : SliceScaleMode
  sidesScaleMode : SliceScaleMode
  maxCornerScale : ℚ
deriving DecidableEq, Repr

inductive NodeImageMode where
  | auto
  | stretch
  | sliced (s : TextureSlicer)
  | tiled (tileX : Bool) (tileY : Bool) (stretchValue : ℚ)
deriving DecidableEq, Repr

inductive Justify where
  | left | center | justified | right
deriving DecidableEq, Repr

inductive LineBreak where
  | anyCharacter | noWrap | wordBoundary | wordOrCharacter
deriving DecidableEq, Repr

structure TextLayout where
  justify : Justify
  linebreak : LineBreak
deriving DecidableEq, Repr

structure TextShadow where
  offset : Vec2
  color : Color
deriving DecidableEq, Repr

structure Outline where
  width : Val
  offset : Val
  color : Color
deriving DecidableEq, Repr

/-- bevy `EaseFunction`: `Linear` (the computed-style default) plus the
thirty curves `parse_easing` recognizes. -/
inductive EaseFunction where
  | linear
  | quadraticIn | quadraticOut | quadraticInOut
  | cubicIn | cubicOut | cubicInOut
  | quarticIn | quarticOut | quarticInOut
  | quinticIn | quinticOut | quinticInOut
  | sineIn | sineOut | sineInOut
  | circularIn | circularOut | circularInOut
  | exponentialIn | exponentialOut | exponentialInOut
  | elasticIn | elasticOut | elasticInOut
  | backIn | backOut | backInOut
  | bounceIn | bounceOut | bounceInOut
deriving DecidableEq, Repr

/-- animation.rs `AnimationDirection`. -/
inductive AnimationDirection where
  | Forward | Reverse | AlternateForward | AlternateReverse
deriving DecidableEq, Repr

/-- animation.rs `Atlas`. -/
structure Atlas where
  size : UVec2
  columns : ℕ
  rows : ℕ
  padding : Option UVec2
  offset : Option UVec2
deriving DecidableEq, Repr

/-- bevy `UiRect`: four `Val` sides. -/
structure UiRect where
  left : Val
  right : Val
  top : Val
  bottom : Val
deriving DecidableEq, Repr

def UiRect.all (v : Val) : UiRect := ⟨v, v, v, v⟩

def UiRect.axes (x y : Val) : UiRect := ⟨x, x, y, y⟩

/-- data.rs `FontReference`: either an unresolved asset path or a loaded
handle; handles are modelled by the path string they were loaded from. -/
inductive FontReference where
  | path (p : String)
  | handle (h : String)
deriving DecidableEq, Repr

/-- bevy `ShadowStyle`, the element type of `BoxShadow`. styles.rs only
ever builds one-sample shadows (`BoxShadow::new`) and only touches sample
0, so `BoxShadow` is modelled as a single sample. -/
structure BoxShadow where
  color : Color
  xOffset : Val
  yOffset : Val
  spreadRadius : Val
  blurRadius : Val
deriving DecidableEq, Repr

/-- data.rs `StyleAttr` (missing from the provided sources; reconstructed,
see the section comment): one variant per style field, plus the three
modifier variants `Hover`, `Pressed`, `Active` wrapping a boxed attribute. -/
inductive StyleAttr where
  | Display (v : Display)
  | Position (v : PositionType)
  | Overflow (v : Overflow)
  | OverflowClipMargin (v : OverflowClipMargin)
  | Left (v : Val)
  | Right (v : Val)
  | Top (v : Val)
  | Bottom (v : Val)
  | Width (v : Val)
  | Height (v : Val)
  | MinWidth (v : Val)
  | MinHeight (v : Val)
  | MaxWidth (v : Val)
  | MaxHeight (v : Val)
  | AspectRatio (v : ℚ)
  | AlignItems (v : AlignItems)
  | JustifyItems (v : JustifyItems)
  | AlignSelf (v : AlignSelf)
  | JustifySelf (v : JustifySelf)
  | AlignContent (v : AlignContent)
  | JustifyContent (v : JustifyContent)
  | Margin (v : UiRect)
  | Padding (v : UiRect)
  | Border (v : UiRect)
  | BorderColor (v : Color)
  | BorderRadius (v : UiRect)
  | FlexDirection (v : FlexDirection)
  | FlexWrap (v : FlexWrap)
  | FlexGrow (v : ℚ)
  | FlexShrink (v : ℚ)
  | FlexBasis (v : Val)
  | RowGap (v : Val)
  | ColumnGap (v : Val)
  | GridAutoFlow (v : GridAutoFlow)
  | GridTemplateRows (v : List RepeatedGridTrack)
  | GridTemplateColumns (v : List RepeatedGridTrack)
  | GridAutoRows (v : List GridTrack)
  | GridAutoColumns (v : List GridTrack)
  | GridRow (v : GridPlacement)
  | GridColumn (v : GridPlacement)
  | FontSize (v : ℚ)
  | FontColor (v : Color)
  | TextLayout (v : TextLayout)
  | Background (v : Color)
  | Atlas (v : Option Atlas)
  | Delay (v : ℚ)
  | Duration (v : ℚ)
  | FPS (v : ℤ)
  | Iterations (v : ℤ)
  | Direction (v : AnimationDirection)
  | Frames (v : List ℤ)
  | Easing (v : EaseFunction)
  | ImageScaleMode (v : NodeImageMode)
  | ImageRegion (v : Rect)
  | ImageColor (v : Color)
  | Zindex (v : ℤ)
  | GlobalZIndex (v : ℤ)
  | Outline (v : Outline)
  | ShadowColor (v : Color)
  | ShadowOffset (x : Val) (y : Val)
  | ShadowBlur (v : Val)
  | ShadowSpread (v : Val)
  | TextShadow (v : TextShadow)
  | Font (v : FontReference)
  | Hover (v : StyleAttr)
  | Pressed (v : StyleAttr)
  | Active (v : StyleAttr)
deriving Repr

/-- bevy UI `Node` (the layout component), restricted to the fields
styles.rs reads or writes; defaults follow bevy's `Node::default`. -/
structure Node where
  display : Display := .flex
  position_type : PositionType := .relative
  overflow : Overflow := ⟨.visible, .visible⟩
  overflow_clip_margin : OverflowClipMargin := ⟨.contentBox, 0⟩
  left : Val := .auto
  right : Val := .auto
  top : Val := .auto
  bottom : Val := .auto
  width : Val := .auto
  height : Val := .auto
  min_width : Val := .auto
  min_height : Val := .auto
  max_width : Val := .auto
  max_height : Val := .auto
  aspect_ratio : Option ℚ := none
  align_items : AlignItems := .default
  justify_items : JustifyItems := .default
  align_self : AlignSelf := .auto
  justify_self : JustifySelf := .auto
  align_content : AlignContent := .default
  justify_content : JustifyContent := .default
  margin : UiRect := ⟨.px 0, .px 0, .px 0, .px 0⟩
  padding : UiRect := ⟨.px 0, .px 0, .px 0, .px 0⟩
  border : UiRect := ⟨.px 0, .px 0, .px 0, .px 0⟩
  flex_direction : FlexDirection := .row
  flex_wrap : FlexWrap := .noWrap
  flex_grow : ℚ := 0
  flex_shrink : ℚ := 1
  flex_basis : Val := .auto
  row_gap : Val := .px 0
  column_gap : Val := .px 0
  grid_auto_flow : GridAutoFlow := .row
  grid_template_rows : List RepeatedGridTrack := []
  grid_template_columns : List RepeatedGridTrack := []
  grid_auto_rows : List GridTrack := []
  grid_auto_columns : List GridTrack := []
  grid_row : GridPlacement := .auto
  grid_column : GridPlacement := .auto
deriving DecidableEq, Repr

/-- styles.rs `ComputedStyle`, with the `Default` impl from styles.rs
lines 493-524 (`Color::WHITE` and `Color::NONE` are bevy's sRGB white and
fully-transparent black). -/
structure ComputedStyle where
  node : Node := {}
  border_color : Color := .linearRgba 0 0 0 0
  border_radius : UiRect := ⟨.px 0, .px 0, .px 0, .px 0⟩
  image_color : Color := .linearRgba 1 1 1 1
  image_mode : Option NodeImageMode := none
  image_region : Option Rect := none
  shadow : Option BoxShadow := none
  text_shadow : Option TextShadow := none
  background : Color := .linearRgba 0 0 0 0
  outline : Option Outline := none
  font : Option FontReference := none
  text_layout : Option TextLayout := none
  font_size : ℚ := 12
  font_color : Color := .linearRgba 1 1 1 1
  atlas : Option Atlas := none
  delay : ℚ := 0
  duration : ℚ := 0
  iterations : ℤ := -1
  fps : ℤ := 1
  frames : List ℤ := []
  direction : AnimationDirection := .Forward
  easing : Option EaseFunction := some .linear
  zindex : Option ℤ := none
  global_zindex : Option ℤ := none
deriving DecidableEq, Repr

/-- styles.rs `HtmlStyle`: the computed baseline plus the hover, pressed
and active override lists. -/
structure HtmlStyle where
  computed : ComputedStyle := {}
  hover : List StyleAttr := []
  pressed : List StyleAttr := []
  active : List StyleAttr := []
deriving Repr

/-- Discriminant of a `StyleAttr` (`std::mem::discriminant`): the
constructor tag, ignoring payloads. -/
def styleTag : StyleAttr → ℕ
  | .Display _ => 0
  | .Position _ => 1
  | .Overflow _ => 2
  | .OverflowClipMargin _ => 3
  | .Left _ => 4
  | .Right _ => 5
  | .Top _ => 6
  | .Bottom _ => 7
  | .Width _ => 8
  | .Height _ => 9
  | .MinWidth _ => 10
  | .MinHeight _ => 11
  | .MaxWidth _ => 12
  | .MaxHeight _ => 13
  | .AspectRatio _ => 14
  | .AlignItems _ => 15
  | .JustifyItems _ => 16
  | .AlignSelf _ => 17
  | .JustifySelf _ => 18
  | .AlignContent _ => 19
  | .JustifyContent _ => 20
  | .Margin _ => 21
  | .Padding _ => 22
  | .Border _ => 23
  | .BorderColor _ => 24
  | .BorderRadius _ => 25
  | .FlexDirection _ => 26
  | .FlexWrap _ => 27
  | .FlexGrow _ => 28
  | .FlexShrink _ => 29
  | .FlexBasis _ => 30
  | .RowGap _ => 31
  | .ColumnGap _ => 32
  | .GridAutoFlow _ => 33
  | .GridTemplateRows _ => 34
  | .GridTemplateColumns _ => 35
  | .GridAutoRows _ => 36
  | .GridAutoColumns _ => 37
  | .GridRow _ => 38
  | .GridColumn _ => 39
  | .FontSize _ => 40
  | .FontColor _ => 41
  | .TextLayout _ => 42
  | .Background _ => 43
  | .Atlas _ => 44
  | .Delay _ => 45
  | .Duration _ => 46
  | .FPS _ => 47
  | .Iterations _ => 48
  | .Direction _ => 49
  | .Frames _ => 50
  | .Easing _ => 51
  | .ImageScaleMode _ => 52
  | .ImageRegion _ => 53
  | .ImageColor _ => 54
  | .Zindex _ => 55
  | .GlobalZIndex _ => 56
  | .Outline _ => 57
  | .ShadowColor _ => 58
  | .ShadowOffset _ _ => 59
  | .ShadowBlur _ => 60
  | .ShadowSpread _ => 61
  | .TextShadow _ => 62
  | .Font _ => 63
  | .Hover _ => 64
  | .Pressed _ => 65
  | .Active _ => 66

/-- The override-list insertion of `add_style_attr`: when an entry with
the same discriminant exists, the new entry is inserted at its position
(before it); otherwise it is pushed at the end. -/
def insertStyle (l : List StyleAttr) (style : StyleAttr) : List StyleAttr :=
  match l.findIdx? (fun s => styleTag s = styleTag style) with
  | some i => l.insertIdx i style
  | none => l ++ [style]

/-- Embedding of `HtmlStyle::add_style_attr` (styles.rs lines 548-727).
The `server` argument carries the asset-loading capability when present
(`Option<&AssetServer>`), modelled as the path-to-handle map. -/
def add_style_attr (self : HtmlStyle) (attr : StyleAttr)
    (server : Option (String → String)) : HtmlStyle :=
  match attr with
  | .Hover style => { self with hover := insertStyle self.hover style }
  | .Pressed style => { self with pressed := insertStyle self.pressed style }
  | .Active style => { self with active := insertStyle self.active style }
  | .Display display => { self with computed.node.display := display }
  | .Position position_type => { self with computed.node.position_type := position_type }
  | .Overflow overflow => { self with computed.node.overflow := overflow }
  | .OverflowClipMargin overflow_clip => { self with computed.node.overflow_clip_margin := overflow_clip }
  | .Left val => { self with computed.node.left := val }
  | .Right val => { self with computed.node.right := val }
  | .Top val => { self with computed.node.top := val }
  | .Bottom val => { self with computed.node.bottom := val }
  | .Width val => { self with computed.node.width := val }
  | .Height val => { self with computed.node.height := val }
  | .MinWidth val => { self with computed.node.min_width := val }
  | .MinHeight val => { self with computed.node.min_height := val }
  | .MaxWidth val => { self with computed.node.max_width := val }
  | .MaxHeight val => { self with computed.node.max_height := val }
  | .AspectRatio f => { self with computed.node.aspect_ratio := some f }
  | .AlignItems align_items => { self with computed.node.align_items := align_items }
  | .JustifyItems justify_items => { self with computed.node.justify_items := justify_items }
  | .AlignSelf align_self => { self with computed.node.align_self := align_self }
  | .JustifySelf justify_self => { self with computed.node.justify_self := justify_self }
  | .AlignContent align_content => { self with computed.node.align_content := align_content }
  | .JustifyContent justify_content => { self with computed.node.justify_content := justify_content }
  | .ImageColor color => { self with computed.image_color := color }
  | .Zindex index => { self with computed.zindex := some index }
  | .GlobalZIndex index => { self with computed.global_zindex := some index }
  | .Margin ui_rect => { self with computed.node.margin := ui_rect }
  | .Padding ui_rect => { self with computed.node.padding := ui_rect }
  | .Border ui_rect => { self with computed.node.border := ui_rect }
  | .BorderColor color => { self with computed.border_color := color }
  | .BorderRadius ui_rect => { self with computed.border_radius := ui_rect }
  | .FlexDirection flex_direction => { self with computed.node.flex_direction := flex_direction }
  | .FlexWrap flex_wrap => { self with computed.node.flex_wrap := flex_wrap }
  | .FlexGrow f => { self with computed.node.flex_grow := f }
  | .FlexShrink f => { self with computed.node.flex_shrink := f }
  | .FlexBasis val => { self with computed.node.flex_basis := val }
  | .RowGap val => { self with computed.node.row_gap := val }
  | .ColumnGap val => { self with computed.node.column_gap := val }
  | .GridAutoFlow grid_auto_flow => { self with computed.node.grid_auto_flow := grid_auto_flow }
  | .GridTemplateRows vec => { self with computed.node.grid_template_rows := vec }
  | .GridTemplateColumns vec => { self with computed.node.grid_template_columns := vec }
  | .GridAutoRows vec => { self with computed.node.grid_auto_rows := vec }
  | .GridAutoColumns vec => { self with computed.node.grid_auto_columns := vec }
  | .GridRow grid_placement => { self with computed.node.grid_row := grid_placement }
  | .GridColumn grid_placement => { self with computed.node.grid_column := grid_placement }
  | .FontSize f => { self with computed.font_size := f }
  | .FontColor color => { self with computed.font_color := color }
  | .TextLayout text_layout => { self with computed.text_layout := some text_layout }
  | .Background color => { self with computed.background := color }
  | .Atlas f => { self with computed.atlas := f }
  | .Delay f => { self with computed.delay := f }
  | .Duration f => { self with computed.duration := f }
  | .FPS f => { self with computed.fps := f }
  | .Iterations f => { self with computed.iterations := f }
  | .Direction f => { self with computed.direction := f }
  | .Frames f => { self with computed.frames := f }
  | .Easing ease => { self with computed.easing := some ease }
  | .ImageScaleMode mode => { self with computed.image_mode := some mode }
  | .ImageRegion rect => { self with computed.image_region := some rect }
  | .Outline outline => { self with computed.outline := some outline }
  | .ShadowSpread spread_radius =>
    match self.computed.shadow with
    | some shadow => { self with computed.shadow := some { shadow with spreadRadius := spread_radius } }
    | none =>
      let fresh : BoxShadow :=
        { color := .linearRgba 0 0 0 1, xOffset := .auto, yOffset := .auto,
          spreadRadius := spread_radius, blurRadius := .auto }
      { self with computed.shadow := some fresh }
  | .ShadowBlur blur_radius =>
    match self.computed.shadow with
    | some shadow => { self with computed.shadow := some { shadow with blurRadius := blur_radius } }
    | none =>
      let fresh : BoxShadow :=
        { color := .linearRgba 0 0 0 1, xOffset := .auto, yOffset := .auto,
          spreadRadius := .auto, blurRadius := blur_radius }
      { self with computed.shadow := some fresh }
  | .ShadowColor color =>
    match self.computed.shadow with
    | some shadow => { self with computed.shadow := some { shadow with color := color } }
    | none =>
      let fresh : BoxShadow :=
        { color := color, xOffset := .auto, yOffset := .auto,
          spreadRadius := .auto, blurRadius := .auto }
      { self with computed.shadow := some fresh }
  | .TextShadow shadow => { self with computed.text_shadow := some shadow }
  | .ShadowOffset x y =>
    match self.computed.shadow with
    | some shadow => { self with computed.shadow := some { shadow with xOffset := x, yOffset := y } }
    | none =>
      let fresh : BoxShadow :=
        { color := .linearRgba 0 0 0 1, xOffset := x, yOffset := y,
          spreadRadius := .auto, blurRadius := .auto }
      { self with computed.shadow := some fresh }
  | .Font font =>
    { self with computed.font :=
        match font, server with
        | .path p, some load => some (.handle (load p))
        | .handle h, _ => some (.handle h)
        | .path p, none => some (.path p) }

/-- Embedding of `From<Vec<StyleAttr>> for HtmlStyle`: fold
`add_style_attr` with no asset server over a default style. -/
def htmlStyleOfList (styles : List StyleAttr) : HtmlStyle :=
  styles.foldl (fun out style => add_style_attr out style none) {}

/-- A sequence of later `add_style_attr` calls, each with its own optional
asset server. -/
def applyStyleCalls (self : HtmlStyle)
    (calls : List (StyleAttr × Option (String → String))) : HtmlStyle :=
  calls.foldl (fun out c => add_style_attr out c.1 c.2) self

/-- True on the three modifier variants. -/
def isModifier : StyleAttr → Bool
  | .Hover _ => true
  | .Pressed _ => true
  | .Active _ => true
  | _ => false

/-- A modifier wraps a non-modifier payload (vacuously true on
non-modifier variants). -/
def modifierPayloadOk : StyleAttr → Bool
  | .Hover b => !(isModifier b)
  | .Pressed b => !(isModifier b)
  | .Active b => !(isModifier b)
  | _ => true

/-- The hover/pressed/active lists hold no modifier variant. -/
def listsModFree (s : HtmlStyle) : Bool :=
  (s.hover ++ s.pressed ++ s.active).all (fun a => !(isModifier a))

theorem all_insertIdx {α : Type} (f : α → Bool) :
    ∀ (l : List α) (n : ℕ) (b : α), l.all f = true → f b = true →
      (l.insertIdx n b).all f = true := by
  intro l
  induction l with
  | nil =>
    intro n b _ hb
    cases n with
    | zero => simp [List.insertIdx_zero, hb]
    | succ m => simp [List.insertIdx_succ_nil]
  | cons x xs ih =>
    intro n b hl hb
    simp only [List.all_cons, Bool.and_eq_true] at hl
    cases n with
    | zero => simp [List.insertIdx_zero, hb, hl.1, hl.2]
    | succ m =>
      simp only [List.insertIdx_succ_cons, List.all_cons, Bool.and_eq_true]
      exact ⟨hl.1, ih m b hl.2 hb⟩

theorem all_insertStyle (f : StyleAttr → Bool) (l : List StyleAttr) (b : StyleAttr)
    (hl : l.all f = true) (hb : f b = true) : (insertStyle l b).all f = true := by
  unfold insertStyle
  cases l.findIdx? (fun s => styleTag s = styleTag b) with
  | none => simp [List.all_append, hl, hb]
  | some i => exact all_insertIdx f l i b hl hb

theorem listsModFree_add (s : HtmlStyle) (a : StyleAttr)
    (srv : Option (String → String))
    (hs : listsModFree s = true) (ha : modifierPayloadOk a = true) :
    listsModFree (add_style_attr s a srv) = true := by
  have hsplit := hs
  simp only [listsModFree, List.all_append, Bool.and_eq_true] at hsplit
  obtain ⟨⟨hh, hp⟩, hac⟩ := hsplit
  cases a <;>
    first
    | exact hs
    | (simp only [add_style_attr]; split <;> exact hs)
    | (simp only [modifierPayloadOk] at ha
       simp only [add_style_attr, listsModFree, List.all_append, Bool.and_eq_true]
       exact ⟨⟨all_insertStyle _ _ _ hh ha, hp⟩, hac⟩)
    | (simp only [modifierPayloadOk] at ha
       simp only [add_style_attr, listsModFree, List.all_append, Bool.and_eq_true]
       exact ⟨⟨hh, all_insertStyle _ _ _ hp ha⟩, hac⟩)
    | (simp only [modifierPayloadOk] at ha
       simp only [add_style_attr, listsModFree, List.all_append, Bool.and_eq_true]
       exact ⟨⟨hh, hp⟩, all_insertStyle _ _ _ hac ha⟩)

theorem listsModFree_applyStyleCalls :
    ∀ (calls : List (StyleAttr × Option (String → String))) (s : HtmlStyle),
      listsModFree s = true → (calls.map Prod.fst).all modifierPayloadOk = true →
      listsModFree (applyStyleCalls s calls) = true := by
  intro calls
  induction calls with
  | nil => intro s hs _; exact hs
  | cons c cs ih =>
    intro s hs hcalls
    simp only [List.map_cons, List.all_cons, Bool.and_eq_true] at hcalls
    exact ih _ (listsModFree_add s c.1 c.2 hs hcalls.1) hcalls.2

theorem listsModFree_ofListFold :
    ∀ (l : List StyleAttr) (s : HtmlStyle),
      listsModFree s = true → l.all modifierPayloadOk = true →
      listsModFree (l.foldl (fun out style => add_style_attr out style none) s) = true := by
  intro l
  induction l with
  | nil => intro s hs _; exact hs
  | cons a as ih =>
    intro s hs hl
    simp only [List.all_cons, Bool.and_eq_true] at hl
    exact ih _ (listsModFree_add s a none hs hl.1) hl.2

/-- Claim C8: for every `HtmlStyle` built from a style-attribute list
(the `From<Vec<StyleAttr>>` path) followed by any sequence of further
`add_style_attr` calls, as long as every modifier attribute in play wraps
a non-modifier payload, the hover, pressed and active override lists never
contain a modifier variant: `add_style_attr` stores only the unwrapped
payloads there. -/
theorem c8_lists_never_hold_modifiers (l1 : List StyleAttr)
    (calls : List (StyleAttr × Option (String → String)))
    (h1 : l1.all modifierPayloadOk = true)
    (h2 : (calls.map Prod.fst).all modifierPayloadOk = true) :
    listsModFree (applyStyleCalls (htmlStyleOfList l1) calls) = true := by
  apply listsModFree_applyStyleCalls calls _ _ h2
  exact listsModFree_ofListFold l1 {} rfl h1

/-- Claim C8 (witness): the theorem applied to a concrete attribute list
and call sequence, all hypotheses discharged by evaluation. -/
theorem c8_witness :
    listsModFree (applyStyleCalls
      (htmlStyleOfList [StyleAttr.Hover (StyleAttr.Width (Val.px 10)),
        StyleAttr.Background (Color.linearRgba 1 1 1 1),
        StyleAttr.Hover (StyleAttr.Width (Val.px 20))])
      [(StyleAttr.Pressed (StyleAttr.Height Val.auto), none),
       (StyleAttr.Active (StyleAttr.FlexGrow 2), none)]) = true :=
  c8_lists_never_hold_modifiers _ _ (by decide) (by rfl)

/-! Sprite animation state machine (animation.rs, build.rs). -/

/-- Rust `as usize` on an i64 value: two's-complement wrap into 0..2^64. -/
def asUsize (n : ℤ) : ℕ := (n % (2 ^ 64 : ℤ)).toNat

/-- Per-image animation state: the `ActiveAnimation` fields of
animation.rs (the `Timer` is abstracted by the per-tick `finished` flag,
and the f32 `duration` is an exact rational) together with `atlasIndex`,
the displayed `TextureAtlas` index of the node's `ImageNode` (always
present on the animated image entities build.rs creates). -/
structure AnimState where
  frame : ℕ
  iterations : ℤ
  duration : ℚ
  direction : AnimationDirection
  atlasIndex : ℕ
deriving DecidableEq, Repr

/-- Embedding of `calculate_starting_frame` (build.rs lines 303-310). -/
def calculate_starting_frame (start finish : ℕ) (direction : AnimationDirection) : ℕ :=
  match direction with
  | .Forward => start
  | .Reverse => finish
  | .AlternateForward => start
  | .AlternateReverse => finish

/-- Embedding of `build_animation` (build.rs lines 312-349) together with
the initial `TextureAtlas.index` the image spawn arm derives from it
(build.rs lines 517-555: `index: starting_frame`). `none` when the style
has no atlas. For a non-empty explicit frames list, the starting frame is
computed from the first and last list *values* cast with `as usize`. -/
def build_animation (c : ComputedStyle) : Option AnimState :=
  match c.atlas with
  | none => none
  | some atlas =>
    let starting_frame :=
      match c.frames, c.frames.getLast? with
      | f0 :: _, some fl => calculate_starting_frame (asUsize f0) (asUsize fl) c.direction
      | _, _ => calculate_starting_frame 0 (atlas.rows * atlas.columns - 1) c.direction
    let starting_direction :=
      match c.direction with
      | .AlternateForward => AnimationDirection.Forward
      | .AlternateReverse => AnimationDirection.Reverse
      | d => d
    some { frame := starting_frame, iterations := c.iterations,
           duration := c.duration / 1000, direction := starting_direction,
           atlasIndex := starting_frame }

/-- The duration-budget update at the top of a `run_animations` iteration
(animation.rs lines 49-55): when the style has a positive duration, the
remaining budget decreases by the elapsed time. -/
def durationStep (c : ComputedStyle) (delta : ℚ) (s : AnimState) : AnimState :=
  if c.duration > 0 then { s with duration := s.duration - delta } else s

/-- The frame advance for an empty frames list (animation.rs lines
67-100): the boundary tests read the displayed `atlas.index`; an
Alternate configured direction flips the running direction at a boundary
and steps to the adjacent interior frame, other directions wrap. -/
def emptyFramesStep (c : ComputedStyle) (atlas : Atlas) (s1 : AnimState) : AnimState :=
  let frame_count := atlas.columns * atlas.rows
  match s1.direction with
  | .Forward =>
    if s1.atlasIndex = frame_count - 1 then
      if c.direction = AnimationDirection.AlternateForward ∨ c.direction = AnimationDirection.AlternateReverse then
        { s1 with direction := .Reverse, frame := frame_count - 2,
                  iterations := s1.iterations - 1 }
      else
        { s1 with frame := 0, iterations := s1.iterations - 1 }
    else { s1 with frame := s1.frame + 1 }
  | .Reverse =>
    if s1.atlasIndex = 0 then
      if c.direction = AnimationDirection.AlternateForward ∨ c.direction = AnimationDirection.AlternateReverse then
        { s1 with direction := .Forward, frame := 1,
                  iterations := s1.iterations - 1 }
      else
        { s1 with frame := frame_count - 1, iterations := s1.iterations - 1 }
    else { s1 with frame := s1.frame - 1 }
  | _ => s1

/-- The frame advance for an explicit frames list (animation.rs lines
101-133): the boundary tests read the maintained frame index. -/
def listFramesStep (c : ComputedStyle) (s1 : AnimState) : AnimState :=
  let frame_count := c.frames.length
  match s1.direction with
  | .Forward =>
    if s1.frame = frame_count - 1 then
      if c.direction = AnimationDirection.AlternateForward ∨ c.direction = AnimationDirection.AlternateReverse then
        { s1 with direction := .Reverse, frame := frame_count - 2,
                  iterations := s1.iterations - 1 }
      else
        { s1 with frame := 0, iterations := s1.iterations - 1 }
    else { s1 with frame := s1.frame + 1 }
  | .Reverse =>
    if s1.frame = 0 then
      if c.direction = AnimationDirection.AlternateForward ∨ c.direction = AnimationDirection.AlternateReverse then
        { s1 with direction := .Forward, frame := 1,
                  iterations := s1.iterations - 1 }
      else
        { s1 with frame := frame_count - 1, iterations := s1.iterations - 1 }
    else { s1 with frame := s1.frame - 1 }
  | _ => s1

/-- Embedding of one per-entity iteration of `run_animations`
(animation.rs lines 40-138). `delta` is the frame elapsed time,
`finished` abstracts `timer.tick(delta); timer.finished()`. The result is
`none` exactly when the Rust code panics: the `style.computed.atlas`
unwrap with no atlas, or the `frames[frame]` indexing out of bounds.
(`frame_count - 2` is usize arithmetic; the truncated ℕ subtraction used
here differs only where `frame_count ≤ 1`, which no boundary branch can
reach with a well-formed atlas and which no claim touches.) -/
def animTick (c : ComputedStyle) (delta : ℚ) (finished : Bool) (s : AnimState) :
    Option AnimState :=
  if s.iterations = 0 then some s else
  let s1 := durationStep c delta s
  if c.duration > 0 ∧ s1.duration ≤ 0 then some s1 else
  if c.frames.length = 1 then some s1 else
  if finished then
    match c.atlas with
    | none => none
    | some atlas =>
      if c.frames.length = 0 then
        let s2 := emptyFramesStep c atlas s1
        some { s2 with atlasIndex := s2.frame }
      else
        let s2 := listFramesStep c s1
        match c.frames[s2.frame]? with
        | some v => some { s2 with atlasIndex := asUsize v }
        | none => none
  else some s1

/-- A sequence of ticks; `none` as soon as one tick panics. -/
def runTicks (c : ComputedStyle) : List (ℚ × Bool) → AnimState → Option AnimState
  | [], s => some s
  | t :: ts, s =>
    match animTick c t.1 t.2 s with
    | none => none
    | some s2 => runTicks c ts s2

/-- The C6 scenario: empty frames list, 4×1 atlas, direction
AlternateForward, one iteration (everything else at the styles.rs
defaults, in particular `duration = 0`, i.e. no total-duration budget). -/
def c6Style : ComputedStyle :=
  { atlas := some ⟨⟨0, 0⟩, 4, 1, none, none⟩,
    direction := .AlternateForward, iterations := 1 }

/-- Claim C6: from the state `build_animation` creates (frame 0, running
direction Forward, 1 iteration, displayed index 0), successive frame-timer
completions display atlas indices 1, 2, 3 — so the animation visits
0,1,2,3 in order — and on the completion after index 3 the running
direction flips to Reverse, the index becomes 2 (frame 3 is not repeated)
and the iteration counter drops to 0; thereafter every tick, whether or
not the timer completes, leaves the state untouched, holding index 2
forever. -/
theorem c6_alternate_forward_trace :
    build_animation c6Style
      = some ⟨0, 1, 0, AnimationDirection.Forward, 0⟩
    ∧ (∀ d : ℚ, animTick c6Style d true ⟨0, 1, 0, .Forward, 0⟩
        = some ⟨1, 1, 0, .Forward, 1⟩)
    ∧ (∀ d : ℚ, animTick c6Style d true ⟨1, 1, 0, .Forward, 1⟩
        = some ⟨2, 1, 0, .Forward, 2⟩)
    ∧ (∀ d : ℚ, animTick c6Style d true ⟨2, 1, 0, .Forward, 2⟩
        = some ⟨3, 1, 0, .Forward, 3⟩)
    ∧ (∀ d : ℚ, animTick c6Style d true ⟨3, 1, 0, .Forward, 3⟩
        = some ⟨2, 0, 0, .Reverse, 2⟩)
    ∧ (∀ (d : ℚ) (f : Bool), animTick c6Style d f ⟨2, 0, 0, .Reverse, 2⟩
        = some ⟨2, 0, 0, .Reverse, 2⟩) := by
  refine ⟨?_, ?_, ?_, ?_, ?_, ?_⟩
  · simp [build_animation, c6Style, calculate_starting_frame]
  all_goals intro d
  all_goals simp [animTick, durationStep, emptyFramesStep, listFramesStep, c6Style]

theorem durationStep_iterations (c : ComputedStyle) (d : ℚ) (s : AnimState) :
    (durationStep c d s).iterations = s.iterations := by
  unfold durationStep; split <;> rfl

theorem emptyFramesStep_iterations (c : ComputedStyle) (atlas : Atlas) (s : AnimState) :
    (emptyFramesStep c atlas s).iterations = s.iterations ∨
    (emptyFramesStep c atlas s).iterations = s.iterations - 1 := by
  obtain ⟨fr, it, du, di, ai⟩ := s
  cases di <;> simp only [emptyFramesStep] <;>
    first
    | exact Or.inl trivial
    | (split_ifs <;> simp)

theorem listFramesStep_iterations (c : ComputedStyle) (s : AnimState) :
    (listFramesStep c s).iterations = s.iterations ∨
    (listFramesStep c s).iterations = s.iterations - 1 := by
  obtain ⟨fr, it, du, di, ai⟩ := s
  cases di <;> simp only [listFramesStep] <;>
    first
    | exact Or.inl trivial
    | (split_ifs <;> simp)

theorem animTick_iterations_step (c : ComputedStyle) (d : ℚ) (f : Bool)
    (s s2 : AnimState) (h : animTick c d f s = some s2) :
    s2.iterations = s.iterations ∨ s2.iterations = s.iterations - 1 := by
  have hdur := durationStep_iterations c d s
  simp only [animTick] at h
  repeat' split at h
  all_goals try cases h
  all_goals try exact Or.inl rfl
  all_goals try (exact Or.inl hdur)
  · rcases emptyFramesStep_iterations c ‹Atlas› (durationStep c d s) with h1 | h1 <;>
      simp_all
  · rcases listFramesStep_iterations c (durationStep c d s) with h1 | h1 <;>
      simp_all

theorem runTicks_iterations_le (c : ComputedStyle) :
    ∀ (ticks : List (ℚ × Bool)) (s s2 : AnimState),
      runTicks c ticks s = some s2 → s.iterations ≤ -1 → s2.iterations ≤ -1 := by
  intro ticks
  induction ticks with
  | nil =>
    intro s s2 h hle
    simp only [runTicks, Option.some.injEq] at h
    subst h
    exact hle
  | cons t ts ih =>
    intro s s2 h hle
    unfold runTicks at h
    cases he : animTick c t.1 t.2 s with
    | none => rw [he] at h; cases h
    | some s1 =>
      rw [he] at h
      rcases animTick_iterations_step c t.1 t.2 s s1 he with h1 | h1 <;>
        exact ih s1 s2 h (by omega)

/-- Claim C7: a tick that starts with the iteration counter at 0 changes
no animation state at all; and an animation whose counter starts at -1
never reaches 0, however many ticks elapse, because the counter only ever
decrements — so it never freezes for that reason. -/
theorem c7_zero_freezes_and_minus_one_never_stops :
    (∀ (c : ComputedStyle) (d : ℚ) (f : Bool) (s : AnimState),
        s.iterations = 0 → animTick c d f s = some s)
    ∧ (∀ (c : ComputedStyle) (ticks : List (ℚ × Bool)) (s s2 : AnimState),
        s.iterations = -1 → runTicks c ticks s = some s2 →
        s2.iterations ≤ -1 ∧ s2.iterations ≠ 0) := by
  constructor
  · intro c d f s h
    simp [animTick, h]
  · intro c ticks s s2 h1 h2
    have hle : s2.iterations ≤ -1 :=
      runTicks_iterations_le c ticks s s2 h2 (by omega)
    exact ⟨hle, by omega⟩

/-- Claim C7 (witness): the theorem applied at a frozen state (counter 0)
and at a two-tick run from counter -1. -/
theorem c7_witness :
    animTick c6Style 1 true ⟨2, 0, 0, AnimationDirection.Reverse, 2⟩
      = some ⟨2, 0, 0, AnimationDirection.Reverse, 2⟩
    ∧ ((⟨0, -1, 0, AnimationDirection.Forward, 0⟩ : AnimState).iterations ≤ -1
      ∧ (⟨0, -1, 0, AnimationDirection.Forward, 0⟩ : AnimState).iterations ≠ 0) :=
  ⟨c7_zero_freezes_and_minus_one_never_stops.1 c6Style 1 true
      ⟨2, 0, 0, AnimationDirection.Reverse, 2⟩ rfl,
   c7_zero_freezes_and_minus_one_never_stops.2 c6Style [(1, false), (1, false)]
      ⟨0, -1, 0, AnimationDirection.Forward, 0⟩
      ⟨0, -1, 0, AnimationDirection.Forward, 0⟩ rfl (by decide)⟩

/-- The C10 failing input: an explicit frames list `[2, 3]` (atlas frames
2 and 3 of a 2×1 atlas), everything else at the defaults (direction
Forward, iterations -1, no duration budget). -/
def c10Style : ComputedStyle :=
  { atlas := some ⟨⟨0, 0⟩, 2, 1, none, none⟩, frames := [2, 3] }

/-- Claim C10 (refuted; the code is the bug): `build_animation` seeds the
maintained frame index with the first frames-list *value* (2), not an
index, so it already lies outside `[0, frames.len() = 2)`; on the very
first timer completion `run_animations` steps it to 3 and the indexing
`frames[3]` is out of bounds — the tick panics (modelled as `none`). -/
theorem c10_frames_index_out_of_bounds :
    build_animation c10Style
      = some ⟨2, -1, 0, AnimationDirection.Forward, 2⟩
    ∧ (∀ d : ℚ, animTick c10Style d true ⟨2, -1, 0, AnimationDirection.Forward, 2⟩
        = none)
    ∧ ¬((⟨2, -1, 0, AnimationDirection.Forward, 2⟩ : AnimState).frame
        < c10Style.frames.length) := by
  refine ⟨?_, ?_, by decide⟩
  · simp [build_animation, c10Style, calculate_starting_frame, asUsize]
  · intro d
    simp [animTick, durationStep, listFramesStep, c10Style, asUsize]

/-! Remaining parser combinators and the parse.rs style sub-parsers. -/

/-- nom `map` on a parser result. -/
def mapP {α β : Type} (p : ParserC α) (f : α → β) : ParserC β := fun input =>
  (p input).map (fun r => (r.1, f r.2))

/-- A tag that produces a fixed value (`map(tag(..), |_| v)`). -/
def tagAs {α : Type} (t : String) (v : α) : ParserC α :=
  mapP (tagP t.toList) (fun _ => v)

/-- `map(tuple((float, tag(t))), |(val, _)| f val)`. -/
def floatSuffix {α : Type} (t : String) (f : ℚ → α) : ParserC α := fun input => do
  let (input, v) ← floatP input
  let (input, _) ← tagP t.toList input
  some (input, f v)

/-- Fueled body of nom `many0`, with its protection against parsers that
succeed without consuming (such a step is an error in nom). -/
def many0Go {α : Type} (p : ParserC α) : ℕ → List Char → List α →
    Option (List Char × List α)
  | 0, input, acc => some (input, acc)
  | fuel + 1, input, acc =>
    match p input with
    | none => some (input, acc)
    | some (i2, v) =>
      if i2.length = input.length then none
      else many0Go p fuel i2 (acc ++ [v])

/-- nom `many0`: the fuel `input.length + 1` can never run out because
every kept step consumes at least one character. -/
def many0P {α : Type} (p : ParserC α) : ParserC (List α) := fun input =>
  many0Go p (input.length + 1) input []

/-- Rust `str::parse::<i64>`: optional single sign, then decimal digits
only, rejecting the empty string and values outside the i64 range. -/
def rustParseI64 (s : List Char) : Option ℤ :=
  let (sgn, ds) : ℤ × List Char :=
    match s with
    | '+' :: r => (1, r)
    | '-' :: r => (-1, r)
    | r => (1, r)
  if ds = [] ∨ ¬(ds.all Char.isDigit = true) then none
  else
    let n : ℤ := sgn * (digitsVal ds : ℤ)
    if -(2 ^ 63) ≤ n ∧ n < 2 ^ 63 then some n else none

/-- Rust `u16::try_from(..).unwrap_or_default()`. -/
def asU16OrZero (n : ℤ) : ℕ := if 0 ≤ n ∧ n < 2 ^ 16 then n.toNat else 0

/-- Rust `i16::try_from(..).unwrap_or_default()`. -/
def asI16OrZero (n : ℤ) : ℤ := if -(2 ^ 15) ≤ n ∧ n < 2 ^ 15 then n else 0

/-- Rust `i32::try_from(..).unwrap_or_default()`. -/
def asI32OrZero (n : ℤ) : ℤ := if -(2 ^ 31) ≤ n ∧ n < 2 ^ 31 then n else 0

/-- Rust `as u32` on an i64 value. -/
def asU32 (n : ℤ) : ℕ := (n % (2 ^ 32 : ℤ)).toNat

/-- Embedding of `parse_str`: a UTF-8 check, which in the character-list
model always succeeds; the whole input is consumed. -/
def parse_str : ParserC String := fun input => some ([], String.mk input)

/-- Embedding of `parse_number` (parse.rs lines 1352-1368): take the run
of ASCII alphanumerics and sign characters, then `str::parse::<i64>`. -/
def parse_number : ParserC ℤ := fun input => do
  let (rest, numChars) ← takeWhileP (fun c => c.isAlphanum || c = '-' || c = '+') input
  match rustParseI64 numChars with
  | some n => some (rest, n)
  | none => none

/-- Rust `str::split(',')` at the character level: the empty string
yields one empty segment, consecutive commas yield empty segments. -/
def splitOnComma : List Char → List (List Char)
  | [] => [[]]
  | x :: xs =>
    let r := splitOnComma xs
    if x = ',' then [] :: r
    else
      match r with
      | h :: t => (x :: h) :: t
      | [] => [[x]]

/-- Rust `str::trim` (whitespace on both ends). -/
def trimC (l : List Char) : List Char :=
  ((l.dropWhile Char.isWhitespace).reverse.dropWhile Char.isWhitespace).reverse

/-- Embedding of `parse_number_vec` (parse.rs lines 1197-1209): split the
whole value on commas, trim each piece, keep those that parse as i64 and
silently drop the rest; never fails (on UTF-8 input) and consumes
nothing. -/
def parse_number_vec : ParserC (List ℤ) := fun input => do
  let (_, _val_str) ← parse_str input
  some (input, (splitOnComma input).filterMap (fun s => rustParseI64 (trimC s)))

/-- Embedding of `parse_val` (parse.rs lines 1474-1495): optional
whitespace around `auto`, the literal `0`, or a float with a unit suffix,
tried in source order. -/
def parse_val : ParserC Val := fun input => do
  let (input, _) ← multispace0 input
  let (input, v) ←
    orP (tagAs "auto" Val.auto)
    (orP (tagAs "0" (Val.px 0))
    (orP (floatSuffix "px" Val.px)
    (orP (floatSuffix "%" Val.percent)
    (orP (floatSuffix "vw" Val.vw)
    (orP (floatSuffix "vh" Val.vh)
    (orP (floatSuffix "vmin" Val.vmin)
         (floatSuffix "vmax" Val.vmax))))))) input
  let (input, _) ← multispace0 input
  some (input, v)

/-- Embedding of `parse_px`: a float followed by `px`. -/
def parse_px : ParserC ℚ := floatSuffix "px" (fun v => v)

/-- Embedding of `parse_delay` (parse.rs lines 1506-1518): float + `s`,
float + `ms` (divided by 1000), or a bare float (seconds). -/
def parse_delay : ParserC ℚ :=
  orP (floatSuffix "s" (fun v => v))
    (orP (floatSuffix "ms" (fun v => v / 1000)) floatP)

/-- Embedding of `parse_position_type`. -/
def parse_position_type : ParserC PositionType :=
  orP (tagAs "absolute" PositionType.absolute) (tagAs "relative" PositionType.relative)

/-- Embedding of `parse_display`. -/
def parse_display : ParserC Display :=
  orP (tagAs "none" Display.none)
  (orP (tagAs "flex" Display.flex)
  (orP (tagAs "block" Display.block) (tagAs "grid" Display.grid)))

/-- Embedding of `parse_overflow_axis`. -/
def parse_overflow_axis : ParserC OverflowAxis :=
  orP (tagAs "visible" OverflowAxis.visible)
  (orP (tagAs "hidden" OverflowAxis.hidden)
  (orP (tagAs "clip" OverflowAxis.clip) (tagAs "scroll" OverflowAxis.scroll)))

/-- Embedding of `parse_overflow`: two axes separated by whitespace. -/
def parse_overflow : ParserC Overflow := fun input => do
  let (input, x) ← parse_overflow_axis input
  let (input, _) ← multispace0 input
  let (input, y) ← parse_overflow_axis input
  some (input, ⟨x, y⟩)

/-- Embedding of `parse_overflow_visual_box`. -/
def parse_overflow_visual_box : ParserC OverflowClipBox :=
  orP (tagAs "content_box" OverflowClipBox.contentBox)
  (orP (tagAs "padding_box" OverflowClipBox.paddingBox)
       (tagAs "border_box" OverflowClipBox.borderBox))

/-- Embedding of `parse_overflow_margin`. -/
def parse_overflow_margin : ParserC OverflowClipMargin := fun input => do
  let (input, visual_box) ← parse_overflow_visual_box input
  let (input, _) ← multispace0 input
  let (input, margin) ← floatP input
  some (input, ⟨visual_box, margin⟩)

/-- Embedding of `parse_align_items` (alternatives in source order). -/
def parse_align_items : ParserC AlignItems :=
  orP (tagAs "default" AlignItems.default)
  (orP (tagAs "center" AlignItems.center)
  (orP (tagAs "start" AlignItems.start)
  (orP (tagAs "flex_end" AlignItems.flexEnd)
  (orP (tagAs "stretch" AlignItems.stretch)
  (orP (tagAs "end" AlignItems.end_)
  (orP (tagAs "baseline" AlignItems.baseline) (tagAs "flex_start" AlignItems.flexStart)))))))

/-- Embedding of `parse_align_content`. -/
def parse_align_content : ParserC AlignContent :=
  orP (tagAs "center" AlignContent.center)
  (orP (tagAs "start" AlignContent.start)
  (orP (tagAs "flex_end" AlignContent.flexEnd)
  (orP (tagAs "stretch" AlignContent.stretch)
  (orP (tagAs "end" AlignContent.end_)
  (orP (tagAs "space_evenly" AlignContent.spaceEvenly)
  (orP (tagAs "space_around" AlignContent.spaceAround)
  (orP (tagAs "space_between" AlignContent.spaceBetween)
       (tagAs "flex_start" AlignContent.flexStart))))))))

/-- Embedding of `parse_align_self`. -/
def parse_align_self : ParserC AlignSelf :=
  orP (tagAs "auto" AlignSelf.auto)
  (orP (tagAs "center" AlignSelf.center)
  (orP (tagAs "start" AlignSelf.start)
  (orP (tagAs "flex_end" AlignSelf.flexEnd)
  (orP (tagAs "stretch" AlignSelf.stretch)
  (orP (tagAs "end" AlignSelf.end_) (tagAs "flex_start" AlignSelf.flexStart))))))

/-- Embedding of `parse_justify_items`. -/
def parse_justify_items : ParserC JustifyItems :=
  orP (tagAs "default" JustifyItems.default)
  (orP (tagAs "center" JustifyItems.center)
  (orP (tagAs "start" JustifyItems.start)
  (orP (tagAs "stretch" JustifyItems.stretch)
  (orP (tagAs "end" JustifyItems.end_) (tagAs "baseline" JustifyItems.baseline)))))

/-- Embedding of `parse_justify_content`. -/
def parse_justify_content : ParserC JustifyContent :=
  orP (tagAs "center" JustifyContent.center)
  (orP (tagAs "start" JustifyContent.start)
  (orP (tagAs "flex_end" JustifyContent.flexEnd)
  (orP (tagAs "stretch" JustifyContent.stretch)
  (orP (tagAs "end" JustifyContent.end_)
  (orP (tagAs "space_evenly" JustifyContent.spaceEvenly)
  (orP (tagAs "space_around" JustifyContent.spaceAround)
  (orP (tagAs "space_between" JustifyContent.spaceBetween)
       (tagAs "flex_start" JustifyContent.flexStart))))))))

/-- Embedding of `parse_justify_self`. -/
def parse_justify_self : ParserC JustifySelf :=
  orP (tagAs "auto" JustifySelf.auto)
  (orP (tagAs "center" JustifySelf.center)
  (orP (tagAs "start" JustifySelf.start)
  (orP (tagAs "stretch" JustifySelf.stretch)
  (orP (tagAs "end" JustifySelf.end_) (tagAs "baseline" JustifySelf.baseline)))))

/-- Embedding of `parse_flex_direction` (`default` maps to bevy's
`FlexDirection::DEFAULT`, i.e. row). -/
def parse_flex_direction : ParserC FlexDirection :=
  orP (tagAs "row" FlexDirection.row)
  (orP (tagAs "column" FlexDirection.column)
  (orP (tagAs "column_reverse" FlexDirection.columnReverse)
  (orP (tagAs "row_reverse" FlexDirection.rowReverse)
       (tagAs "default" FlexDirection.row))))

/-- Embedding of `parse_flex_wrap`. -/
def parse_flex_wrap : ParserC FlexWrap :=
  orP (tagAs "wrap" FlexWrap.wrap)
  (orP (tagAs "no_wrap" FlexWrap.noWrap) (tagAs "wrap_reverse" FlexWrap.wrapReverse))

/-- Embedding of `parse_auto_flow`: whitespace-delimited keyword. -/
def parse_auto_flow : ParserC GridAutoFlow := fun input => do
  let (input, _) ← multispace0 input
  let (input, v) ←
    orP (tagAs "row" GridAutoFlow.row)
    (orP (tagAs "column" GridAutoFlow.column)
    (orP (tagAs "row_dense" GridAutoFlow.rowDense)
         (tagAs "column_dense" GridAutoFlow.columnDense))) input
  let (input, _) ← multispace0 input
  some (input, v)

/-- Embedding of `parse_justify_text`. -/
def parse_justify_text : ParserC Justify :=
  orP (tagAs "left" Justify.left)
  (orP (tagAs "center" Justify.center)
  (orP (tagAs "justified" Justify.justified) (tagAs "right" Justify.right)))

/-- Embedding of `parse_linerbreak`. -/
def parse_linerbreak : ParserC LineBreak :=
  orP (tagAs "any_character" LineBreak.anyCharacter)
  (orP (tagAs "no_wrap" LineBreak.noWrap)
  (orP (tagAs "word_boundary" LineBreak.wordBoundary)
       (tagAs "word_or_character" LineBreak.wordOrCharacter)))

/-- Embedding of `parse_text_layout`: justify, whitespace, linebreak. -/
def parse_text_layout : ParserC TextLayout := fun input => do
  let (input, justify) ← parse_justify_text input
  let (input, _) ← multispace0 input
  let (input, linebreak) ← parse_linerbreak input
  some (input, ⟨justify, linebreak⟩)

/-- Embedding of `parse_direction` (animation direction keywords). -/
def parse_direction : ParserC AnimationDirection :=
  orP (tagAs "forward" AnimationDirection.Forward)
  (orP (tagAs "reverse" AnimationDirection.Reverse)
  (orP (tagAs "alternate_forward" AnimationDirection.AlternateForward)
       (tagAs "alternate_reverse" AnimationDirection.AlternateReverse)))

/-- Embedding of `parse_bool`. -/
def parse_bool : ParserC Bool :=
  orP (tagAs "true" true) (tagAs "false" false)

/-- Embedding of `parse_easing` (parse.rs lines 515-559): an exact match
of the whole value against the thirty curve names; on success the input
is returned unconsumed, as in the source. -/
def parse_easing : ParserC EaseFunction := fun input =>
  if input = "quadratic_in".toList then some (input, .quadraticIn) else
  if input = "quadratic_out".toList then some (input, .quadraticOut) else
  if input = "quadratic_in_out".toList then some (input, .quadraticInOut) else
  if input = "cubic_in".toList then some (input, .cubicIn) else
  if input = "cubic_out".toList then some (input, .cubicOut) else
  if input = "cubic_in_out".toList then some (input, .cubicInOut) else
  if input = "quartic_in".toList then some (input, .quarticIn) else
  if input = "quartic_out".toList then some (input, .quarticOut) else
  if input = "quartic_in_out".toList then some (input, .quarticInOut) else
  if input = "quintic_in".toList then some (input, .quinticIn) else
  if input = "quintic_out".toList then some (input, .quinticOut) else
  if input = "quintic_in_out".toList then some (input, .quinticInOut) else
  if input = "sine_in".toList then some (input, .sineIn) else
  if input = "sine_out".toList then some (input, .sineOut) else
  if input = "sine_in_out".toList then some (input, .sineInOut) else
  if input = "circular_in".toList then some (input, .circularIn) else
  if input = "circular_out".toList then some (input, .circularOut) else
  if input = "circular_in_out".toList then some (input, .circularInOut) else
  if input = "exponential_in".toList then some (input, .exponentialIn) else
  if input = "exponential_out".toList then some (input, .exponentialOut) else
  if input = "exponential_in_out".toList then some (input, .exponentialInOut) else
  if input = "elastic_in".toList then some (input, .elasticIn) else
  if input = "elastic_out".toList then some (input, .elasticOut) else
  if input = "elastic_in_out".toList then some (input, .elasticInOut) else
  if input = "back_in".toList then some (input, .backIn) else
  if input = "back_out".toList then some (input, .backOut) else
  if input = "back_in_out".toList then some (input, .backInOut) else
  if input = "bounce_in".toList then some (input, .bounceIn) else
  if input = "bounce_out".toList then some (input, .bounceOut) else
  if input = "bounce_in_out".toList then some (input, .bounceInOut) else
  none

/-- Embedding of `parse_vec2`: `(float, float)`. -/
def parse_vec2 : ParserC Vec2 := fun input => do
  let (input, _) ← tagP "(".toList input
  let (input, _) ← multispace0 input
  let (input, x) ← floatP input
  let (input, _) ← tagP ",".toList input
  let (input, _) ← multispace0 input
  let (input, y) ← floatP input
  let (input, _) ← tagP ")".toList input
  some (input, ⟨x, y⟩)

/-- Embedding of `parse_rect`: two corner vectors. -/
def parse_rect : ParserC Rect := fun input => do
  let (input, _) ← multispace0 input
  let (input, pmin) ← parse_vec2 input
  let (input, _) ← multispace0 input
  let (input, pmax) ← parse_vec2 input
  some (input, Rect.from_corners pmin pmax)

/-- Embedding of `parse_uvec2`: `(u32, u32)` via `parse_number` and
`as u32` casts. -/
def parse_uvec2 : ParserC UVec2 := fun input => do
  let (input, _) ← tagP "(".toList input
  let (input, _) ← multispace0 input
  let (input, x) ← parse_number input
  let (input, _) ← tagP ",".toList input
  let (input, _) ← multispace0 input
  let (input, y) ← parse_number input
  let (input, _) ← tagP ")".toList input
  some (input, ⟨asU32 x, asU32 y⟩)

/-- Embedding of `parse_dimensions`: `(w, h)` or a single number used for
both components. -/
def parse_dimensions : ParserC UVec2 := fun input =>
  orP (fun i => do
        let (i, _) ← multispace0 i
        parse_uvec2 i)
      (fun i => do
        let (i, _) ← multispace0 i
        let (i, v) ← parse_number i
        some (i, (⟨asU32 v, asU32 v⟩ : UVec2))) input

/-- Embedding of `parse_atlas` (parse.rs lines 888-965): dimensions,
columns, rows, then optional `p(..)` padding and `o(..)` offset, the four
combinations tried in source order. -/
def parse_atlas : ParserC (Option Atlas) := fun input =>
  orP (fun i => do
        let (i, _) ← multispace0 i
        let (i, size) ← parse_dimensions i
        let (i, _) ← multispace0 i
        let (i, columns) ← parse_number i
        let (i, _) ← multispace0 i
        let (i, rows) ← parse_number i
        let (i, _) ← multispace0 i
        let (i, _) ← charP 'p' i
        let (i, padding) ← parse_dimensions i
        let (i, _) ← multispace0 i
        let (i, _) ← charP 'o' i
        let (i, offset) ← parse_dimensions i
        some (i, some (⟨size, asU32 columns, asU32 rows, some padding, some offset⟩ : Atlas)))
  (orP (fun i => do
        let (i, _) ← multispace0 i
        let (i, size) ← parse_dimensions i
        let (i, _) ← multispace0 i
        let (i, columns) ← parse_number i
        let (i, _) ← multispace0 i
        let (i, rows) ← parse_number i
        let (i, _) ← multispace0 i
        let (i, _) ← charP 'p' i
        let (i, padding) ← parse_dimensions i
        some (i, some (⟨size, asU32 columns, asU32 rows, some padding, none⟩ : Atlas)))
  (orP (fun i => do
        let (i, _) ← multispace0 i
        let (i, size) ← parse_dimensions i
        let (i, _) ← multispace0 i
        let (i, columns) ← parse_number i
        let (i, _) ← multispace0 i
        let (i, rows) ← parse_number i
        let (i, _) ← multispace0 i
        let (i, _) ← charP 'o' i
        let (i, offset) ← parse_dimensions i
        some (i, some (⟨size, asU32 columns, asU32 rows, none, some offset⟩ : Atlas)))
       (fun i => do
        let (i, _) ← multispace0 i
        let (i, size) ← parse_dimensions i
        let (i, _) ← multispace0 i
        let (i, columns) ← parse_number i
        let (i, _) ← multispace0 i
        let (i, rows) ← parse_number i
        some (i, some (⟨size, asU32 columns, asU32 rows, none, none⟩ : Atlas))))) input

/-- Embedding of `parse_grid_track`: whitespace-delimited keyword or
float with unit. -/
def parse_grid_track : ParserC GridTrack := fun input => do
  let (input, _) ← multispace0 input
  let (input, t) ←
    orP (tagAs "auto" GridTrack.auto)
    (orP (tagAs "min" GridTrack.minContent)
    (orP (tagAs "max" GridTrack.maxContent)
    (orP (floatSuffix "px" GridTrack.px)
    (orP (floatSuffix "%" GridTrack.percent)
    (orP (floatSuffix "fr" GridTrack.fr)
    (orP (floatSuffix "flex" GridTrack.flex)
    (orP (floatSuffix "vh" GridTrack.vh)
    (orP (floatSuffix "vw" GridTrack.vw)
    (orP (floatSuffix "vmin" GridTrack.vmin)
         (floatSuffix "vmax" GridTrack.vmax)))))))))) input
  let (input, _) ← multispace0 input
  some (input, t)

/-- Embedding of `parse_grid_track_repeated`: `(repeats, size)`, the size
chunk captured up to `)` and reparsed. -/
def parse_grid_track_repeated : ParserC RepeatedGridTrack := fun input => do
  let (input, _) ← multispace0 input
  let (input, _) ← tagP "(".toList input
  let (input, _) ← multispace0 input
  let (input, n) ← parse_number input
  let (input, _) ← multispace0 input
  let (input, _) ← tagP ",".toList input
  let (input, _) ← multispace0 input
  let (input, value) ← takeUntilCharP ')' input
  let (input, _) ← multispace0 input
  let (input, _) ← tagP ")".toList input
  let (_, track) ←
    orP (tagAs "auto" GridTrack.auto)
    (orP (tagAs "min" GridTrack.minContent)
    (orP (tagAs "max" GridTrack.maxContent)
    (orP (floatSuffix "px" GridTrack.px)
    (orP (floatSuffix "%" GridTrack.percent)
    (orP (floatSuffix "fr" GridTrack.fr)
    (orP (floatSuffix "flex" GridTrack.flex)
    (orP (floatSuffix "vh" GridTrack.vh)
    (orP (floatSuffix "vw" GridTrack.vw)
    (orP (floatSuffix "vmin" GridTrack.vmin)
         (floatSuffix "vmax" GridTrack.vmax)))))))))) value
  some (input, (⟨asU16OrZero n, track⟩ : RepeatedGridTrack))

/-- A parenthesized number with surrounding whitespace, as used by the
grid-placement arms. -/
def parenNumber : ParserC ℤ := fun input => do
  let (input, _) ← tagP "(".toList input
  let (input, _) ← multispace0 input
  let (input, n) ← parse_number input
  let (input, _) ← multispace0 input
  let (input, _) ← tagP ")".toList input
  some (input, n)

/-- Embedding of `parse_grid_placement` (parse.rs lines 1373-1471): an
identifier up to `(` or `"`, matched exactly, then its arguments. -/
def parse_grid_placement : ParserC GridPlacement := fun input => do
  let (input, _) ← multispace0 input
  let (input, ident) ← takeWhile1P (fun c => c ≠ '(' && c ≠ '"') input
  if ident = "auto".toList then some (input, GridPlacement.auto)
  else if ident = "span".toList then
    (parenNumber input).map (fun r => (r.1, GridPlacement.span (asU16OrZero r.2)))
  else if ident = "end".toList then
    (parenNumber input).map (fun r => (r.1, GridPlacement.endAt (asI16OrZero r.2)))
  else if ident = "start".toList then
    (parenNumber input).map (fun r => (r.1, GridPlacement.startAt (asI16OrZero r.2)))
  else if ident = "start_span".toList then do
    let (input, _) ← tagP "(".toList input
    let (input, _) ← multispace0 input
    let (input, a) ← parse_number input
    let (input, _) ← multispace0 input
    let (input, _) ← tagP ",".toList input
    let (input, _) ← multispace0 input
    let (input, b) ← parse_number input
    let (input, _) ← multispace0 input
    let (input, _) ← tagP ")".toList input
    some (input, GridPlacement.startSpan (asI16OrZero a) (asU16OrZero b))
  else if ident = "end_span".toList then do
    let (input, _) ← tagP "(".toList input
    let (input, _) ← multispace0 input
    let (input, a) ← parse_number input
    let (input, _) ← multispace0 input
    let (input, _) ← tagP ",".toList input
    let (input, _) ← multispace0 input
    let (input, b) ← parse_number input
    let (input, _) ← multispace0 input
    let (input, _) ← tagP ")".toList input
    some (input, GridPlacement.endSpan (asI16OrZero a) (asU16OrZero b))
  else none

/-- Embedding of `parse_stretch` and `parse_tile` via `parse_slice_scale`. -/
def parse_slice_scale : ParserC SliceScaleMode :=
  orP (tagAs "stretch" SliceScaleMode.stretch)
    (fun i => do
      let (i, _) ← tagP "tile".toList i
      let (i, _) ← tagP "(".toList i
      let (i, v) ← floatP i
      let (i, _) ← tagP ")".toList i
      some (i, SliceScaleMode.tile v))

/-- Embedding of `parse_border_rect`: 4, 2 or 1 `px` lengths. -/
def parse_border_rect : ParserC BorderRect := fun input =>
  orP (fun i => do
        let (i, _) ← multispace0 i
        let (i, top) ← parse_px i
        let (i, _) ← multispace0 i
        let (i, right) ← parse_px i
        let (i, _) ← multispace0 i
        let (i, bottom) ← parse_px i
        let (i, _) ← multispace0 i
        let (i, left) ← parse_px i
        some (i, (⟨left, right, top, bottom⟩ : BorderRect)))
  (orP (fun i => do
        let (i, _) ← multispace0 i
        let (i, x) ← parse_px i
        let (i, _) ← multispace0 i
        let (i, y) ← parse_px i
        some (i, BorderRect.axes x y))
       (fun i => do
        let (i, _) ← multispace0 i
        let (i, all) ← parse_px i
        some (i, BorderRect.all all))) input

/-- Embedding of `parse_image_slice`: border rect and two scale modes and
a max corner scale. -/
def parse_image_slice : ParserC NodeImageMode := fun input => do
  let (input, _) ← multispace0 input
  let (input, border) ← parse_border_rect input
  let (input, _) ← multispace0 input
  let (input, x) ← parse_slice_scale input
  let (input, _) ← multispace0 input
  let (input, y) ← parse_slice_scale input
  let (input, _) ← multispace0 input
  let (input, s) ← floatP input
  some (input, NodeImageMode.sliced ⟨border, x, y, s⟩)

/-- Embedding of `parse_image_tile`: two booleans and a stretch value. -/
def parse_image_tile : ParserC NodeImageMode := fun input => do
  let (input, _) ← multispace0 input
  let (input, x) ← parse_bool input
  let (input, _) ← multispace0 input
  let (input, y) ← parse_bool input
  let (input, _) ← multispace0 input
  let (input, s) ← floatP input
  some (input, NodeImageMode.tiled x y s)

/-- Embedding of `parse_image_scale_mode`. -/
def parse_image_scale_mode : ParserC NodeImageMode :=
  orP (tagAs "auto" NodeImageMode.auto)
  (orP (tagAs "stretch" NodeImageMode.stretch)
  (orP parse_image_tile parse_image_slice))

/-- Embedding of `parse_outline`: width, offset, color. -/
def parse_outline (γ : ℚ → ℚ) : ParserC Outline := fun input => do
  let (input, _) ← multispace0 input
  let (input, width) ← parse_val input
  let (input, _) ← multispace0 input
  let (input, offset) ← parse_val input
  let (input, _) ← multispace0 input
  let (input, color) ← parse_color γ input
  some (input, ⟨width, offset, color⟩)

/-- Embedding of `parse_text_shadow`: an offset vector and a color. -/
def parse_text_shadow (γ : ℚ → ℚ) : ParserC TextShadow := fun input => do
  let (input, o) ← parse_vec2 input
  let (input, _) ← multispace0 input
  let (input, c) ← parse_color γ input
  some (input, ⟨o, c⟩)

/-- Embedding of `as_string`: the whole rest as a (lossy) string. -/
def as_string : ParserC String := fun input => some ([], String.mk input)

/-- Fueled tail loop of nom `separated_list1` for `as_string_list`: a
comma then a nonempty element, stopping (and rewinding the separator)
when either fails. -/
def asStringListGo : ℕ → List Char → List (List Char) →
    List Char × List (List Char)
  | 0, input, acc => (input, acc)
  | fuel + 1, input, acc =>
    match tagP ",".toList input with
    | none => (input, acc)
    | some (i2, _) =>
      match takeWhile1P (fun c => c ≠ ',' && c ≠ '"') i2 with
      | none => (input, acc)
      | some (i3, el) => asStringListGo fuel i3 (acc ++ [el])

/-- Embedding of `as_string_list`: comma-separated nonempty chunks (at
least one), each free of commas and quotes. -/
def as_string_list : ParserC (List String) := fun input => do
  let (rest0, first) ← takeWhile1P (fun c => c ≠ ',' && c ≠ '"') input
  let (rest, elems) := asStringListGo input.length rest0 [first]
  some (rest, elems.map (fun l => String.mk l))

/-- Embedding of `parse_ui_rect` (parse.rs lines 1074-1110): four values
(top right bottom left), two (axes) or one (all sides), tried in that
order. -/
def parse_ui_rect : ParserC UiRect := fun input =>
  orP (fun i => do
        let (i, _) ← multispace0 i
        let (i, top) ← parse_val i
        let (i, _) ← multispace0 i
        let (i, right) ← parse_val i
        let (i, _) ← multispace0 i
        let (i, bottom) ← parse_val i
        let (i, _) ← multispace0 i
        let (i, left) ← parse_val i
        some (i, (⟨left, right, top, bottom⟩ : UiRect)))
  (orP (fun i => do
        let (i, _) ← multispace0 i
        let (i, x) ← parse_val i
        let (i, _) ← multispace0 i
        let (i, y) ← parse_val i
        some (i, UiRect.axes x y))
       (fun i => do
        let (i, _) ← multispace0 i
        let (i, all) ← parse_val i
        some (i, UiRect.all all))) input

/-! Attribute classification (parse.rs lines 310-506) and node building.
The `Attribute`, `AttrTokens`, `Action`, `NodeType`, `XNode` and
`HtmlTemplate` declarations live in the missing data.rs and are
reconstructed from spec §3 and their use sites (the data.rs field called
`prefix` is spelled `pfx` here). -/

/-- data.rs `Action`: one event kind with its handler-name list. -/
inductive Action where
  | OnEnter (l : List String)
  | OnExit (l : List String)
  | OnPress (l : List String)
  | OnSpawn (l : List String)
  | OnChange (l : List String)
deriving DecidableEq, Repr

/-- data.rs `AttrTokens`: an unresolved expression token. -/
structure AttrTokens where
  pfx : Option String
  ident : String
  key : String
deriving DecidableEq, Repr

/-- data.rs `Attribute`: the classification result of one XML attribute. -/
inductive Attribute where
  | Style (s : StyleAttr)
  | PropertyDefinition (key : String) (value : String)
  | Name (s : String)
  | Uncompiled (t : AttrTokens)
  | Action (a : Action)
  | Path (p : String)
  | Target (t : String)
  | Id (i : String)
  | Tag (key : String) (value : String)
  | Watch (w : String)
deriving Repr

/-- The brace parser of `parse_uncompiled`:
`delimited(tag("{"), is_not("}"), tag("}"))` — an opening brace, at least
one character that is not a closing brace, then a closing brace; trailing
input is left over (and ignored by the caller). -/
def bracedExpr : ParserC (List Char) := fun i => do
  let (i, _) ← tagP ['\x7b'] i
  let (i, prop) ← isNotP '\x7d' i
  let (i, _) ← tagP ['\x7d'] i
  some (i, prop)

/-- Embedding of `parse_uncompiled` (parse.rs lines 310-326): emit an
expression token when the brace parser succeeds on the value. -/
def parse_uncompiled (pfx : Option String) (key : String) (value : List Char) :
    Option Attribute :=
  match bracedExpr value with
  | some (_, prop) => some (Attribute.Uncompiled ⟨pfx, key, String.mk prop⟩)
  | none => none

/-- Embedding of `as_prop` (parse.rs lines 328-335): the key/value pair as
a property definition (the UTF-8-lossy conversions cannot fail in the
character-list model). -/
def as_prop (key : String) (value : List Char) : Option Attribute :=
  some (Attribute.PropertyDefinition key (String.mk value))

/-- The `shadow_offset` pair parser:
`tuple((parse_val, preceded(multispace0, parse_val)))`. -/
def parse_shadow_offset : ParserC (Val × Val) := fun i => do
  let (i, x) ← parse_val i
  let (i, _) ← multispace0 i
  let (i, y) ← parse_val i
  some (i, (x, y))

/-- Embedding of `parse_style` (parse.rs lines 400-506): dispatch on the
style name to the per-field sub-parser, unknown names are an error; a
`pressed`/`hover`/`active` prefix wraps the result in the matching
modifier. `load` is the injected asset loader (`font` arm), `γ` bevy's
sRGB-to-linear channel map (color arms). -/
def parse_style (load : String → String) (γ : ℚ → ℚ)
    (pfx : Option String) (ident : String) (value : List Char) :
    Option StyleAttr :=
  let parsed : Option StyleAttr :=
    match ident with
    | "bottom" => (parse_val value).map (fun r => StyleAttr.Bottom r.2)
    | "top" => (parse_val value).map (fun r => StyleAttr.Top r.2)
    | "right" => (parse_val value).map (fun r => StyleAttr.Right r.2)
    | "left" => (parse_val value).map (fun r => StyleAttr.Left r.2)
    | "height" => (parse_val value).map (fun r => StyleAttr.Height r.2)
    | "width" => (parse_val value).map (fun r => StyleAttr.Width r.2)
    | "padding" => (parse_ui_rect value).map (fun r => StyleAttr.Padding r.2)
    | "margin" => (parse_ui_rect value).map (fun r => StyleAttr.Margin r.2)
    | "border" => (parse_ui_rect value).map (fun r => StyleAttr.Border r.2)
    | "border_radius" => (parse_ui_rect value).map (fun r => StyleAttr.BorderRadius r.2)
    | "outline" => (parse_outline γ value).map (fun r => StyleAttr.Outline r.2)
    | "background" => (parse_color γ value).map (fun r => StyleAttr.Background r.2)
    | "border_color" => (parse_color γ value).map (fun r => StyleAttr.BorderColor r.2)
    | "font" => (as_string value).map (fun r => StyleAttr.Font (.handle (load r.2)))
    | "font_color" => (parse_color γ value).map (fun r => StyleAttr.FontColor r.2)
    | "text_layout" => (parse_text_layout value).map (fun r => StyleAttr.TextLayout r.2)
    | "font_size" => (floatP value).map (fun r => StyleAttr.FontSize r.2)
    | "max_height" => (parse_val value).map (fun r => StyleAttr.MaxHeight r.2)
    | "max_width" => (parse_val value).map (fun r => StyleAttr.MaxWidth r.2)
    | "min_height" => (parse_val value).map (fun r => StyleAttr.MinHeight r.2)
    | "min_width" => (parse_val value).map (fun r => StyleAttr.MinWidth r.2)
    | "delay" => (parse_delay value).map (fun r => StyleAttr.Delay r.2)
    | "ease" => (parse_easing value).map (fun r => StyleAttr.Easing r.2)
    | "image_color" => (parse_color γ value).map (fun r => StyleAttr.ImageColor r.2)
    | "image_region" => (parse_rect value).map (fun r => StyleAttr.ImageRegion r.2)
    | "position" => (parse_position_type value).map (fun r => StyleAttr.Position r.2)
    | "display" => (parse_display value).map (fun r => StyleAttr.Display r.2)
    | "zindex" => (parse_number value).map (fun r => StyleAttr.Zindex (asI32OrZero r.2))
    | "global_zindex" =>
      (parse_number value).map (fun r => StyleAttr.GlobalZIndex (asI32OrZero r.2))
    | "aspect_ratio" => (floatP value).map (fun r => StyleAttr.AspectRatio r.2)
    | "overflow" => (parse_overflow value).map (fun r => StyleAttr.Overflow r.2)
    | "overflow_clip_margin" =>
      (parse_overflow_margin value).map (fun r => StyleAttr.OverflowClipMargin r.2)
    | "align_self" => (parse_align_self value).map (fun r => StyleAttr.AlignSelf r.2)
    | "align_items" => (parse_align_items value).map (fun r => StyleAttr.AlignItems r.2)
    | "align_content" =>
      (parse_align_content value).map (fun r => StyleAttr.AlignContent r.2)
    | "justify_self" =>
      (parse_justify_self value).map (fun r => StyleAttr.JustifySelf r.2)
    | "justify_items" =>
      (parse_justify_items value).map (fun r => StyleAttr.JustifyItems r.2)
    | "justify_content" =>
      (parse_justify_content value).map (fun r => StyleAttr.JustifyContent r.2)
    | "flex_direction" =>
      (parse_flex_direction value).map (fun r => StyleAttr.FlexDirection r.2)
    | "flex_wrap" => (parse_flex_wrap value).map (fun r => StyleAttr.FlexWrap r.2)
    | "flex_grow" => (floatP value).map (fun r => StyleAttr.FlexGrow r.2)
    | "flex_shrink" => (floatP value).map (fun r => StyleAttr.FlexShrink r.2)
    | "flex_basis" => (parse_val value).map (fun r => StyleAttr.FlexBasis r.2)
    | "row_gap" => (parse_val value).map (fun r => StyleAttr.RowGap r.2)
    | "column_gap" => (parse_val value).map (fun r => StyleAttr.ColumnGap r.2)
    | "grid_auto_flow" => (parse_auto_flow value).map (fun r => StyleAttr.GridAutoFlow r.2)
    | "grid_auto_rows" =>
      (many0P parse_grid_track value).map (fun r => StyleAttr.GridAutoRows r.2)
    | "grid_auto_columns" =>
      (many0P parse_grid_track value).map (fun r => StyleAttr.GridAutoColumns r.2)
    | "grid_template_rows" =>
      (many0P parse_grid_track_repeated value).map (fun r => StyleAttr.GridTemplateRows r.2)
    | "grid_template_columns" =>
      (many0P parse_grid_track_repeated value).map
        (fun r => StyleAttr.GridTemplateColumns r.2)
    | "grid_row" => (parse_grid_placement value).map (fun r => StyleAttr.GridRow r.2)
    | "grid_column" => (parse_grid_placement value).map (fun r => StyleAttr.GridColumn r.2)
    | "image_mode" =>
      (parse_image_scale_mode value).map (fun r => StyleAttr.ImageScaleMode r.2)
    | "shadow_color" => (parse_color γ value).map (fun r => StyleAttr.ShadowColor r.2)
    | "shadow_offset" =>
      (parse_shadow_offset value).map (fun r => StyleAttr.ShadowOffset r.2.1 r.2.2)
    | "shadow_blur" => (parse_val value).map (fun r => StyleAttr.ShadowBlur r.2)
    | "shadow_spread" => (parse_val value).map (fun r => StyleAttr.ShadowSpread r.2)
    | "text_shadow" => (parse_text_shadow γ value).map (fun r => StyleAttr.TextShadow r.2)
    | "atlas" => (parse_atlas value).map (fun r => StyleAttr.Atlas r.2)
    | "duration" => (parse_delay value).map (fun r => StyleAttr.Duration r.2)
    | "direction" => (parse_direction value).map (fun r => StyleAttr.Direction r.2)
    | "iterations" => (parse_number value).map (fun r => StyleAttr.Iterations r.2)
    | "fps" => (parse_number value).map (fun r => StyleAttr.FPS r.2)
    | "frames" => (parse_number_vec value).map (fun r => StyleAttr.Frames r.2)
    | _ => none
  match parsed with
  | none => none
  | some style =>
    match pfx with
    | some "pressed" => some (StyleAttr.Pressed style)
    | some "hover" => some (StyleAttr.Hover style)
    | some "active" => some (StyleAttr.Active style)
    | _ => some style

/-- Embedding of `attribute_from_parts` (parse.rs lines 337-398):
expression placeholders first, then the `tag:` prefix, then the
structural keys, then style dispatch. -/
def attribute_from_parts (load : String → String) (γ : ℚ → ℚ)
    (pfx : Option String) (key : String) (value : List Char) :
    Option Attribute :=
  match parse_uncompiled pfx key value with
  | some attr => some attr
  | none =>
    if pfx = some "tag" then some (Attribute.Tag key (String.mk value))
    else
      match key with
      | "watch" => some (Attribute.Watch (String.mk value))
      | "id" => some (Attribute.Id (String.mk value))
      | "target" => some (Attribute.Target (String.mk value))
      | "src" => some (Attribute.Path (String.mk value))
      | "on_enter" => (as_string_list value).map (fun r => Attribute.Action (.OnEnter r.2))
      | "on_exit" => (as_string_list value).map (fun r => Attribute.Action (.OnExit r.2))
      | "on_press" => (as_string_list value).map (fun r => Attribute.Action (.OnPress r.2))
      | "on_spawn" => (as_string_list value).map (fun r => Attribute.Action (.OnSpawn r.2))
      | "on_change" => (as_string_list value).map (fun r => Attribute.Action (.OnChange r.2))
      | _ => (parse_style load γ pfx key value).map (fun s => Attribute.Style s)

/-- data.rs / prelude `NodeType` (reconstructed; `Property` appears in
build.rs but is never produced by `parse_node_type`). -/
inductive NodeType where
  | Node | Image | Button | Text | Slot | Template | Property
  | Custom (name : String)
deriving DecidableEq, Repr

/-- Embedding of `parse_node_type` (parse.rs lines 292-308): a nom `alt`
of `tag` parsers, so the six keywords match as *prefixes* of the element
name, in source order; anything else becomes `Custom` of the whole name. -/
def parse_node_type (name : List Char) : NodeType :=
  if "node".toList.isPrefixOf name then .Node
  else if "image".toList.isPrefixOf name then .Image
  else if "button".toList.isPrefixOf name then .Button
  else if "text".toList.isPrefixOf name then .Text
  else if "slot".toList.isPrefixOf name then .Slot
  else if "template".toList.isPrefixOf name then .Template
  else .Custom (String.mk name)

/-- parse.rs `XmlAttr`: one raw attribute. -/
structure XmlAttr where
  pfx : Option String
  key : String
  value : List Char
deriving Repr

/-- parse.rs `Xml`: one raw element (prefix, name, optional text value,
attributes, children). -/
inductive Xml where
  | mk (pfx : Option String) (name : List Char) (value : Option (List Char))
       (attributes : List XmlAttr) (children : List Xml)

def Xml.name : Xml → List Char
  | .mk _ n _ _ _ => n

def Xml.value : Xml → Option (List Char)
  | .mk _ _ v _ _ => v

def Xml.attributes : Xml → List XmlAttr
  | .mk _ _ _ a _ => a

def Xml.children : Xml → List Xml
  | .mk _ _ _ _ c => c

/-- Map insertion with replace-on-duplicate, the `HashMap::insert`
semantics used for `defs`, `tags` and template properties. -/
def insertKV (m : List (String × String)) (k v : String) : List (String × String) :=
  if m.any (fun p => p.1 = k) then m.map (fun p => if p.1 = k then (k, v) else p)
  else m ++ [(k, v)]

/-- The non-recursive fields of data.rs `XNode` (reconstructed). -/
structure XNodeData where
  node_type : NodeType := .Node
  content_id : ℕ := 0
  styles : List StyleAttr := []
  defs : List (String × String) := []
  name : Option String := none
  uncompiled : List AttrTokens := []
  event_listener : List Action := []
  src : Option String := none
  target : Option String := none
  id : Option String := none
  tags : List (String × String) := []
  watch : Option String := none

/-- data.rs `XNode`: the node data plus child nodes. -/
inductive XNode where
  | mk (data : XNodeData) (children : List XNode)

def XNode.data : XNode → XNodeData
  | .mk d _ => d

def XNode.children : XNode → List XNode
  | .mk _ c => c

/-- The attribute dispatch of the `from_raw_xml` loop (parse.rs lines
152-167): fold one classified attribute into the node record. -/
def applyAttribute (x : XNodeData) (a : Attribute) : XNodeData :=
  match a with
  | .Style s => { x with styles := x.styles ++ [s] }
  | .PropertyDefinition k v => { x with defs := insertKV x.defs k v }
  | .Name s => { x with name := some s }
  | .Uncompiled t => { x with uncompiled := x.uncompiled ++ [t] }
  | .Action act => { x with event_listener := x.event_listener ++ [act] }
  | .Path p => { x with src := some p }
  | .Target t => { x with target := some t }
  | .Id i => { x with id := some i }
  | .Tag k v => { x with tags := insertKV x.tags k v }
  | .Watch w => { x with watch := some w }

/-- The per-attribute compilation of `from_raw_xml` (parse.rs lines
141-150): on `Custom` nodes a failed `attribute_from_parts` falls back to
`as_prop`; on every other node kind the failure propagates. -/
def compileAttr (load : String → String) (γ : ℚ → ℚ) (nt : NodeType)
    (a : XmlAttr) : Option Attribute :=
  match nt with
  | .Custom _ =>
    match attribute_from_parts load γ a.pfx a.key a.value with
    | some att => some att
    | none => as_prop a.key a.value
  | _ => attribute_from_parts load γ a.pfx a.key a.value

/-- Fold `compileAttr`/`applyAttribute` over an attribute list,
propagating the first failure. -/
def processAttrs (load : String → String) (γ : ℚ → ℚ) (nt : NodeType) :
    List XmlAttr → XNodeData → Option XNodeData
  | [], x => some x
  | a :: rest, x =>
    match compileAttr load γ nt a with
    | none => none
    | some att => processAttrs load γ nt rest (applyAttribute x att)

mutual

/-- Embedding of `from_raw_xml` (parse.rs lines 123-176): classify the
node type, store the optional text value in the content table
(`content_id` 0 when there is none), compile every attribute, then
recurse over the children, threading the content table. -/
def from_raw_xml (load : String → String) (γ : ℚ → ℚ) :
    Xml → List String → Option (XNode × List String)
  | Xml.mk _ name value attrs children, content =>
    let nt := parse_node_type name
    let (content2, cid) :=
      match value with
      | some bytes => (content ++ [String.mk bytes], content.length)
      | none => (content, 0)
    match processAttrs load γ nt attrs { node_type := nt, content_id := cid } with
    | none => none
    | some xdata =>
      match from_raw_xml_list load γ children content2 with
      | none => none
      | some (kids, content3) => some (XNode.mk xdata kids, content3)

/-- The child loop of `from_raw_xml`. -/
def from_raw_xml_list (load : String → String) (γ : ℚ → ℚ) :
    List Xml → List String → Option (List XNode × List String)
  | [], content => some ([], content)
  | x :: xs, content =>
    match from_raw_xml load γ x content with
    | none => none
    | some (n, c1) =>
      match from_raw_xml_list load γ xs c1 with
      | none => none
      | some (ns, c2) => some (n :: ns, c2)

end

/-- data.rs `HtmlTemplate` (reconstructed): name, declared properties,
root nodes and the content table. -/
structure HtmlTemplate where
  name : Option String
  properties : List (String × String)
  root : List XNode
  content : List String

/-- The child loop of `parse_template` (parse.rs lines 66-92): children
named exactly `property` or `name` feed the template header; everything
else goes through `from_raw_xml`, whose failure aborts the template. -/
def templateChildren (load : String → String) (γ : ℚ → ℚ) :
    List Xml → Option String → List (String × String) → List XNode →
    List String →
    Option (Option String × List (String × String) × List XNode × List String)
  | [], nm, props, root, content => some (nm, props, root, content)
  | c :: cs, nm, props, root, content =>
    if c.name = "property".toList then
      let props2 :=
        match c.attributes.find? (fun a => a.key = "name"), c.value with
        | some a, some v => insertKV props (String.mk a.value) (String.mk v)
        | _, _ => props
      templateChildren load γ cs nm props2 root content
    else if c.name = "name".toList then
      let nm2 :=
        match c.value with
        | some v => some (String.mk v)
        | none => nm
      templateChildren load γ cs nm2 props root content
    else
      match from_raw_xml load γ c content with
      | none => none
      | some (node, c2) => templateChildren load γ cs nm props (root ++ [node]) c2

/-- Embedding of the template-building part of `parse_template`
(parse.rs lines 46-103), starting from the parsed root element. -/
def templateFromXml (load : String → String) (γ : ℚ → ℚ) (xml : Xml) :
    Option HtmlTemplate :=
  (templateChildren load γ xml.children none [] [] []).map
    (fun r => { name := r.1, properties := r.2.1, root := r.2.2.1, content := r.2.2.2 })

theorem dropWhile_head_false {p : Char → Bool} :
    ∀ (l : List Char) (d : Char) (t : List Char),
      l.dropWhile p = d :: t → p d = false := by
  intro l
  induction l with
  | nil => intro d t h; cases h
  | cons x xs ih =>
    intro d t h
    by_cases hx : p x
    · rw [List.dropWhile_cons_of_pos hx] at h
      exact ih d t h
    · rw [List.dropWhile_cons_of_neg hx] at h
      cases h
      simpa using hx

theorem length_dropWhile_le' {p : Char → Bool} :
    ∀ (l : List Char), (l.dropWhile p).length ≤ l.length := by
  intro l
  induction l with
  | nil => simp
  | cons x xs ih =>
    by_cases hx : p x
    · rw [List.dropWhile_cons_of_pos hx]
      exact Nat.le_succ_of_le ih
    · rw [List.dropWhile_cons_of_neg hx]

/-- The shape of values that emit an expression token, stated from the
amended claim's words: the value begins with `\x7b`, then at least one
character that is not `\x7d`, then `\x7d`; the returned key is the raw
run between the braces, and anything after the closing brace is ignored. -/
def leadingPlaceholder (value : List Char) : Option String :=
  match value with
  | c :: rest =>
    if c = '\x7b' then
      match rest.takeWhile (fun x => !decide (x = '\x7d')),
            rest.dropWhile (fun x => !decide (x = '\x7d')) with
      | [], _ => none
      | _, [] => none
      | mid, _ :: _ => some (String.mk mid)
    else none
  | [] => none

theorem parse_uncompiled_iff (pfx : Option String) (key : String)
    (value : List Char) (k : String) :
    parse_uncompiled pfx key value = some (Attribute.Uncompiled ⟨pfx, key, k⟩)
      ↔ leadingPlaceholder value = some k := by
  unfold parse_uncompiled bracedExpr leadingPlaceholder
  cases value with
  | nil => simp [tagP, List.isPrefixOf]
  | cons c rest =>
    by_cases hc : c = '\x7b'
    · subst hc
      have hpre : ['\x7b'].isPrefixOf ('\x7b' :: rest) = true := by
        simp [List.isPrefixOf]
      cases hmid : rest.takeWhile (fun x : Char => !decide (x = '\x7d')) with
      | nil =>
        simp [tagP, hpre, isNotP, takeWhile1P, hmid]
      | cons m ms =>
        cases hdrop : rest.dropWhile (fun x : Char => !decide (x = '\x7d')) with
        | nil =>
          simp [tagP, hpre, isNotP, takeWhile1P, hmid, hdrop, List.isPrefixOf]
        | cons d t =>
          have hd : d = '\x7d' := by
            have := dropWhile_head_false rest d t hdrop
            simpa using this
          subst hd
          simp [tagP, hpre, isNotP, takeWhile1P, hmid, hdrop, List.isPrefixOf,
            AttrTokens.mk.injEq]
    · have hpre : ['\x7b'].isPrefixOf (c :: rest) = false := by
        simp [List.isPrefixOf]
        intro h
        exact hc h.symm
      simp [tagP, hpre, hc]

theorem parse_uncompiled_shape (pfx : Option String) (key : String)
    (value : List Char) (a : Attribute)
    (h : parse_uncompiled pfx key value = some a) :
    ∃ k, a = Attribute.Uncompiled ⟨pfx, key, k⟩ := by
  unfold parse_uncompiled at h
  cases hb : bracedExpr value with
  | none => rw [hb] at h; cases h
  | some r =>
    rw [hb] at h
    cases h
    exact ⟨String.mk r.2, rfl⟩

theorem attribute_from_parts_no_expr (load : String → String) (γ : ℚ → ℚ)
    (pfx : Option String) (key : String) (value : List Char)
    (h : parse_uncompiled pfx key value = none) :
    ∀ t, attribute_from_parts load γ pfx key value ≠ some (Attribute.Uncompiled t) := by
  intro t
  unfold attribute_from_parts
  rw [h]
  by_cases htag : pfx = some "tag"
  · simp [htag]
  · simp only [htag, if_false]
    split
    all_goals simp

/-- Claim C3 (amended): `attribute_from_parts` emits an unresolved
expression token `⟨prefix, key, k⟩` exactly when the value *begins with*
a complete placeholder — `\x7b`, at least one non-`\x7d` character
(the raw key `k`, whitespace preserved), then `\x7d` — trailing content
after the closing brace being ignored; and since this test runs first,
it takes priority over the tag prefix, the structural keys and style
dispatch for every prefix and key. -/
theorem c3_expression_token_iff (load : String → String) (γ : ℚ → ℚ) :
    ∀ (pfx : Option String) (key : String) (value : List Char) (k : String),
      attribute_from_parts load γ pfx key value
          = some (Attribute.Uncompiled ⟨pfx, key, k⟩)
        ↔ leadingPlaceholder value = some k := by
  intro pfx key value k
  constructor
  · intro h
    cases hu : parse_uncompiled pfx key value with
    | none => exact absurd h (attribute_from_parts_no_expr load γ pfx key value hu _)
    | some a =>
      obtain ⟨k2, rfl⟩ := parse_uncompiled_shape pfx key value a hu
      have h2 : attribute_from_parts load γ pfx key value
          = some (Attribute.Uncompiled ⟨pfx, key, k2⟩) := by
        unfold attribute_from_parts
        rw [hu]
      rw [h2] at h
      cases h
      exact (parse_uncompiled_iff pfx key value k).mp hu
  · intro h
    have hu := (parse_uncompiled_iff pfx key value k).mpr h
    unfold attribute_from_parts
    rw [hu]

/-- Claim C3 (counterexample): with trailing content after the closing
brace (`\x7bx\x7dtail`), the value's entire content does not match
`\x7b property_key \x7d`, yet an expression token is still emitted — even
for a structural key such as `width`, demonstrating both the failure of
the entire-content reading and the priority over other interpretations. -/
theorem c3_counterexample :
    attribute_from_parts (fun s => s) (fun x => x) none "width"
        ("\x7bx\x7dtail".toList)
      = some (Attribute.Uncompiled ⟨none, "width", "x"⟩)
    ∧ "\x7bx\x7dtail".toList ≠ '\x7b' :: "x".toList ++ ['\x7d'] := by
  exact ⟨rfl, by decide⟩

/-- Claim C3 (witness): the amended equivalence applied at a concrete
prefix, key and value. -/
theorem c3_witness :
    attribute_from_parts (fun s => s) (fun x => x) (some "hover") "width"
        ("\x7b val \x7drest".toList)
      = some (Attribute.Uncompiled ⟨some "hover", "width", " val "⟩) :=
  (c3_expression_token_iff (fun s => s) (fun x => x) (some "hover") "width"
    ("\x7b val \x7drest".toList) " val ").mpr (by rfl)

/-- Claim C5 (counterexample): the recognized style name `frames` with
the non-conforming value `abc` does not cause a hard parse error: the
dispatch succeeds with an empty frames list, silently dropping the
non-integer entry. -/
theorem c5_counterexample :
    parse_style (fun s => s) (fun x => x) none "frames" ("abc".toList)
      = some (StyleAttr.Frames []) := rfl

/-- Claim C5 (amended): recognized style names dispatch to their
sub-parser and unknown names (here the representative `zzz`) are a hard
error for every value, but the `frames` integer-list field never fails:
for every value string the dispatch succeeds, returning exactly the
comma-separated entries that parse as i64 after trimming and silently
dropping the rest. -/
theorem c5_frames_never_errors (load : String → String) (γ : ℚ → ℚ) :
    (∀ value : List Char,
      parse_style load γ none "frames" value
        = some (StyleAttr.Frames
            ((splitOnComma value).filterMap (fun s => rustParseI64 (trimC s)))))
    ∧ (∀ value : List Char, parse_style load γ none "zzz" value = none)
    ∧ parse_style load γ none "frames" ("1,abc, 2".toList)
        = some (StyleAttr.Frames [1, 2]) := by
  refine ⟨?_, ?_, ?_⟩
  · intro value
    rfl
  · intro value
    rfl
  · rfl

/-- Claim C5 (witness): the amended theorem applied at concrete values. -/
theorem c5_witness :
    parse_style (fun s => s) (fun x => x) none "frames" ("7,x".toList)
      = some (StyleAttr.Frames
          ((splitOnComma ("7,x".toList)).filterMap (fun s => rustParseI64 (trimC s))))
    ∧ parse_style (fun s => s) (fun x => x) none "zzz" ("abc".toList) = none :=
  ⟨(c5_frames_never_errors (fun s => s) (fun x => x)).1 ("7,x".toList),
   (c5_frames_never_errors (fun s => s) (fun x => x)).2.1 ("abc".toList)⟩

/-- A node record holding only a node type and one property default, as
produced by the custom-element fallback for a single failing attribute. -/
def defsOnlyNode (nt : NodeType) (key v : String) : XNodeData :=
  { node_type := nt, defs := [(key, v)] }

theorem afp_style_branch (load : String → String) (γ : ℚ → ℚ)
    (pfx : Option String) (key : String) (value : List Char)
    (hunc : parse_uncompiled pfx key value = none)
    (htag : pfx ≠ some "tag")
    (hkey : key ∉ ["watch", "id", "target", "src", "on_enter", "on_exit",
      "on_press", "on_spawn", "on_change"]) :
    attribute_from_parts load γ pfx key value
      = (parse_style load γ pfx key value).map (fun s => Attribute.Style s) := by
  unfold attribute_from_parts
  rw [hunc]
  show (if pfx = some "tag" then _ else _) = _
  rw [if_neg htag]
  split
  all_goals simp_all

/-- Claim C4: an attribute that reaches style dispatch (no expression
placeholder, no `tag:` prefix, not a structural key) and fails it makes
`attribute_from_parts` fail; on a `Custom` element the failure falls back
to `as_prop`, so the node parses successfully with the key/value pair
recorded as a property default, while on every non-`Custom` element the
failure propagates: the node fails to parse, and with it the whole
template. -/
theorem c4_custom_fallback (load : String → String) (γ : ℚ → ℚ)
    (pfx : Option String) (key : String) (value : List Char)
    (hunc : parse_uncompiled pfx key value = none)
    (htag : pfx ≠ some "tag")
    (hkey : key ∉ ["watch", "id", "target", "src", "on_enter", "on_exit",
      "on_press", "on_spawn", "on_change"])
    (hstyle : parse_style load γ pfx key value = none) :
    attribute_from_parts load γ pfx key value = none
    ∧ (∀ (name : List Char) (cname : String) (content : List String),
        parse_node_type name = .Custom cname →
        from_raw_xml load γ (Xml.mk none name none [⟨pfx, key, value⟩] []) content
          = some (XNode.mk (defsOnlyNode (.Custom cname) key (String.mk value)) [],
              content))
    ∧ (∀ (name : List Char) (content : List String),
        (∀ cn, parse_node_type name ≠ .Custom cn) →
        from_raw_xml load γ (Xml.mk none name none [⟨pfx, key, value⟩] []) content
          = none)
    ∧ (∀ (name : List Char) (rpfx : Option String) (rname : List Char)
        (rval : Option (List Char)) (rattrs : List XmlAttr),
        (∀ cn, parse_node_type name ≠ .Custom cn) →
        templateFromXml load γ (Xml.mk rpfx rname rval rattrs
          [Xml.mk none name none [⟨pfx, key, value⟩] []]) = none) := by
  have hafp : attribute_from_parts load γ pfx key value = none := by
    rw [afp_style_branch load γ pfx key value hunc htag hkey, hstyle]
    rfl
  have hcustom : ∀ (name : List Char) (cname : String) (content : List String),
      parse_node_type name = .Custom cname →
      from_raw_xml load γ (Xml.mk none name none [⟨pfx, key, value⟩] []) content
        = some (XNode.mk (defsOnlyNode (.Custom cname) key (String.mk value)) [],
            content) := by
    intro name cname content hn
    simp [from_raw_xml, from_raw_xml_list, processAttrs, compileAttr, hn, hafp,
      as_prop, applyAttribute, insertKV, defsOnlyNode]
  have hfail : ∀ (name : List Char) (content : List String),
      (∀ cn, parse_node_type name ≠ .Custom cn) →
      from_raw_xml load γ (Xml.mk none name none [⟨pfx, key, value⟩] []) content
        = none := by
    intro name content hnc
    cases hnt : parse_node_type name with
    | Custom cn => exact absurd hnt (hnc cn)
    | _ =>
      simp [from_raw_xml, processAttrs, compileAttr, hnt, hafp]
  refine ⟨hafp, hcustom, hfail, ?_⟩
  intro name rpfx rname rval rattrs hnc
  have hp : name ≠ ['p', 'r', 'o', 'p', 'e', 'r', 't', 'y'] := by
    intro he
    exact hnc "property" (by rw [he]; decide)
  have hq : name ≠ ['n', 'a', 'm', 'e'] := by
    intro he
    exact hnc "name" (by rw [he]; decide)
  simp [templateFromXml, templateChildren, Xml.children, Xml.name, hp, hq,
    hfail name [] hnc]

/-- Claim C4 (witness): the theorem applied at a concrete failing
attribute (`not_a_style="v"`), a custom element name and a non-custom
element name. -/
theorem c4_witness :
    attribute_from_parts (fun s => s) (fun x => x) none "not_a_style"
        ("v".toList) = none
    ∧ from_raw_xml (fun s => s) (fun x => x)
        (Xml.mk none ("widget".toList) none [⟨none, "not_a_style", "v".toList⟩] []) []
        = some (XNode.mk (defsOnlyNode (.Custom "widget") "not_a_style" "v") [], [])
    ∧ from_raw_xml (fun s => s) (fun x => x)
        (Xml.mk none ("button".toList) none [⟨none, "not_a_style", "v".toList⟩] []) []
        = none
    ∧ templateFromXml (fun s => s) (fun x => x)
        (Xml.mk none ("html".toList) none []
          [Xml.mk none ("button".toList) none [⟨none, "not_a_style", "v".toList⟩] []])
        = none := by
  have h := c4_custom_fallback (fun s => s) (fun x => x) none "not_a_style"
    ("v".toList) rfl (by simp) (by decide) rfl
  have hb : ∀ cn, parse_node_type ("button".toList) ≠ NodeType.Custom cn := by
    intro cn hcn
    rw [show parse_node_type ("button".toList) = NodeType.Button from rfl] at hcn
    exact NodeType.noConfusion hcn
  refine ⟨h.1, ?_, ?_, ?_⟩
  · exact h.2.1 ("widget".toList) "widget" [] (by decide)
  · exact h.2.2.1 ("button".toList) [] hb
  · exact h.2.2.2 ("button".toList) none ("html".toList) none [] hb

/-- Rust `str::trim_end`: drop trailing whitespace. -/
def trimEndC (l : List Char) : List Char :=
  (l.reverse.dropWhile Char.isWhitespace).reverse

/-- `TemplateProperties::get`: look a key up in the scope map. -/
def lookupKV (m : List (String × String)) (k : String) : Option String :=
  (m.find? (fun p => p.1 = k)).map (fun p => p.2)

/-- The placeholder parser of `compile_content` (compile.rs line 210):
`delimited(tag("\x7b"), preceded(multispace0, is_not("\x7d")), tag("\x7d"))`.
`multispace0` never fails, so it is inlined as `dropWhile isSpaceC`. -/
def ccPlaceholder : ParserC (List Char) := fun input =>
  match tagP ['\x7b'] input with
  | none => none
  | some (r1, _) =>
    match isNotP '\x7d' (r1.dropWhile isSpaceC) with
    | none => none
    | some (r2, key) =>
      match tagP ['\x7d'] r2 with
      | none => none
      | some (r3, _) => some (r3, key)

/-- The tuple parser of `compile_content` (compile.rs lines 208-211):
`tuple((take_until("\x7b"), delimited(...)))`, returning the remaining
input and the (literal, key) pair. -/
def ccParts : ParserC (List Char × List Char) := fun input =>
  match takeUntilCharP '\x7b' input with
  | none => none
  | some (r1, literal) =>
    match ccPlaceholder r1 with
    | none => none
    | some (r2, key) => some (r2, (literal, key))

theorem tagP_single_lt {c : Char} {r s t : List Char}
    (h : tagP [c] r = some (s, t)) : s.length < r.length := by
  cases r with
  | nil => simp [tagP, List.isPrefixOf] at h
  | cons a as =>
    unfold tagP at h
    split at h
    · cases h; simp
    · cases h

theorem takeWhile1P_le {p : Char → Bool} {r s t : List Char}
    (h : takeWhile1P p r = some (s, t)) : s.length ≤ r.length := by
  unfold takeWhile1P at h
  split at h
  · cases h
  · cases h
    exact length_dropWhile_le' r

theorem takeUntilP_le {c : Char} {r s t : List Char}
    (h : takeUntilCharP c r = some (s, t)) : s.length ≤ r.length := by
  unfold takeUntilCharP at h
  split at h
  · cases h
    exact length_dropWhile_le' r
  · cases h

theorem ccPlaceholder_lt {r s key : List Char}
    (h : ccPlaceholder r = some (s, key)) : s.length < r.length := by
  unfold ccPlaceholder at h
  cases h1 : tagP ['\x7b'] r with
  | none => rw [h1] at h; cases h
  | some v1 =>
    obtain ⟨r1, t1⟩ := v1
    rw [h1] at h
    simp only at h
    cases h2 : isNotP '\x7d' (r1.dropWhile isSpaceC) with
    | none => rw [h2] at h; cases h
    | some v2 =>
      obtain ⟨r2, k2⟩ := v2
      rw [h2] at h
      simp only at h
      cases h3 : tagP ['\x7d'] r2 with
      | none => rw [h3] at h; cases h
      | some v3 =>
        obtain ⟨r3, t3⟩ := v3
        rw [h3] at h
        simp only at h
        cases h
        have e1 := tagP_single_lt h1
        have e2 := takeWhile1P_le h2
        have e3 := tagP_single_lt h3
        have e4 := length_dropWhile_le' (p := isSpaceC) r1
        omega

theorem ccParts_lt {input rest lit key : List Char}
    (h : ccParts input = some (rest, (lit, key))) :
    rest.length < input.length := by
  unfold ccParts at h
  cases h1 : takeUntilCharP '\x7b' input with
  | none => rw [h1] at h; cases h
  | some v1 =>
    obtain ⟨r1, l1⟩ := v1
    rw [h1] at h
    simp only at h
    cases h2 : ccPlaceholder r1 with
    | none => rw [h2] at h; cases h
    | some v2 =>
      obtain ⟨r2, k2⟩ := v2
      rw [h2] at h
      simp only at h
      cases h
      have e1 := takeUntilP_le h1
      have e2 := ccPlaceholder_lt h2
      omega

/-- Fuelled body of `compile_content` (compile.rs lines 205-229): each
successful parse step strictly shrinks the input (`ccParts_lt`), so fuel
`input.length` is always enough and the value is fuel-independent
(`ccGo_congr`). -/
def ccGo (defs : List (String × String)) : ℕ → List Char → List Char
  | 0, input => input
  | fuel + 1, input =>
    match ccParts input with
    | none => input
    | some (rest, (lit, key)) =>
      let rep : List Char :=
        match lookupKV defs (String.mk (trimEndC key)) with
        | some v => v.toList
        | none => []
      if 0 < rest.length then lit ++ rep ++ ccGo defs fuel rest
      else lit ++ rep

/-- Embedding of `compile_content` (compile.rs lines 205-229). -/
def compile_content (defs : List (String × String)) (input : List Char) :
    List Char :=
  ccGo defs input.length input

theorem ccGo_congr (defs : List (String × String)) :
    ∀ (f1 f2 : ℕ) (input : List Char), input.length ≤ f1 →
      input.length ≤ f2 → ccGo defs f1 input = ccGo defs f2 input := by
  intro f1
  induction f1 with
  | zero =>
    intro f2 input h1 h2
    have : input = [] := List.eq_nil_of_length_eq_zero (Nat.le_zero.mp h1)
    subst this
    cases f2 with
    | zero => rfl
    | succ m => rfl
  | succ n ih =>
    intro f2 input h1 h2
    cases f2 with
    | zero =>
      have : input = [] := List.eq_nil_of_length_eq_zero (Nat.le_zero.mp h2)
      subst this
      rfl
    | succ m =>
      show ccGo defs (n + 1) input = ccGo defs (m + 1) input
      unfold ccGo
      cases hp : ccParts input with
      | none => rfl
      | some v =>
        obtain ⟨rest, lit, key⟩ := v
        have hlt := ccParts_lt hp
        simp only
        by_cases hr : 0 < rest.length
        · rw [if_pos hr, if_pos hr, ih n rest (by omega) (by omega),
            ih m rest (by omega) (by omega)]
        · rw [if_neg hr, if_neg hr]

theorem ccGo_succ (defs : List (String × String)) (fuel : ℕ)
    (input : List Char) :
    ccGo defs (fuel + 1) input
      = match ccParts input with
        | none => input
        | some (rest, (lit, key)) =>
          let rep : List Char :=
            match lookupKV defs (String.mk (trimEndC key)) with
            | some v => v.toList
            | none => []
          if 0 < rest.length then lit ++ rep ++ ccGo defs fuel rest
          else lit ++ rep := rfl

theorem compile_content_step (defs : List (String × String))
    (input rest lit key : List Char)
    (h : ccParts input = some (rest, (lit, key))) :
    compile_content defs input
      = lit
        ++ (match lookupKV defs (String.mk (trimEndC key)) with
            | some v => v.toList
            | none => [])
        ++ (if 0 < rest.length then compile_content defs rest else []) := by
  have hlt := ccParts_lt h
  unfold compile_content
  cases hn : input.length with
  | zero => omega
  | succ m =>
    rw [ccGo_succ, h]
    simp only
    by_cases hr : 0 < rest.length
    · rw [if_pos hr, if_pos hr,
        ccGo_congr defs m rest.length rest (by omega) le_rfl]
    · rw [if_neg hr, if_neg hr, List.append_nil]

theorem compile_content_verbatim (defs : List (String × String))
    (input : List Char) (h : ccParts input = none) :
    compile_content defs input = input := by
  unfold compile_content
  cases hn : input.length with
  | zero => rfl
  | succ m => unfold ccGo; rw [h]

/-- Claim C9 (counterexample): on `a\x7b\x7db\x7bx\x7dc` with the scope
mapping `x` to `1`, the first `\x7b` is not followed by a complete
placeholder, so the tuple parser fails and the WHOLE input comes back
verbatim: the later complete placeholder `\x7bx\x7d` is not substituted,
although the same placeholder alone (`b\x7bx\x7dc`) is. The claim's
"replacing each complete placeholder" is therefore wrong. -/
theorem c9_counterexample :
    ccParts (String.toList "a\x7b\x7db\x7bx\x7dc") = none
    ∧ compile_content [("x", "1")] (String.toList "a\x7b\x7db\x7bx\x7dc")
        = String.toList "a\x7b\x7db\x7bx\x7dc"
    ∧ compile_content [("x", "1")] (String.toList "b\x7bx\x7dc")
        = String.toList "b1c" :=
  ⟨rfl, rfl, rfl⟩

/-- Claim C9 (amended): `compile_content` always returns a string. When
the text has no `\x7b`, or the first `\x7b` does not begin a complete
placeholder (optional whitespace then at least one character before the
first `\x7d`), the whole remaining text is returned verbatim, later
complete placeholders included. Otherwise the literal before the first
`\x7b` is kept, the placeholder is replaced by the scope map's value for
the trailing-whitespace-trimmed key (empty when unmapped), and the scan
continues on the rest of the text. -/
theorem c9_compile_content_amended (defs : List (String × String))
    (input : List Char) :
    (ccParts input = none → compile_content defs input = input)
    ∧ (∀ rest lit key, ccParts input = some (rest, (lit, key)) →
        compile_content defs input
          = lit
            ++ (match lookupKV defs (String.mk (trimEndC key)) with
                | some v => v.toList
                | none => [])
            ++ (if 0 < rest.length then compile_content defs rest else [])) :=
  ⟨compile_content_verbatim defs input,
   fun rest lit key h => compile_content_step defs input rest lit key h⟩

/-- Claim C9 (witness): the amended theorem applied to a placeholder-free
text and to `b\x7b x \x7dc` with `x` mapped to `1`. -/
theorem c9_witness :
    compile_content [("x", "1")] (String.toList "plain text")
      = String.toList "plain text"
    ∧ compile_content [("x", "1")] (String.toList "b\x7b x \x7dc")
      = ("b".toList)
        ++ (match lookupKV [("x", "1")] (String.mk (trimEndC ("x ".toList))) with
            | some v => v.toList
            | none => [])
        ++ (if 0 < ("c".toList).length
            then compile_content [("x", "1")] ("c".toList) else []) :=
  ⟨(c9_compile_content_amended [("x", "1")] (String.toList "plain text")).1 rfl,
   (c9_compile_content_amended [("x", "1")] (String.toList "b\x7b x \x7dc")).2
     ("c".toList) ("b".toList) ("x ".toList) rfl⟩

end BevyHui
